import Mathlib

/-!
Shallow embedding of the vistk pipeline builder (`pipeline.cxx`) —
the registry, connection book, type-check kernel, cluster flattener,
lifecycle flags, query operations and the frequency solver — together
with theorems settling the frozen claims about it.

`std::map` containers are embedded as key-sorted association lists,
`std::vector`/`std::queue` as lists, exceptions as `Except` or a
returned `Option` error, and recursion whose termination the C++ relies
on dynamically is given explicit fuel (`Option` result, `none` = fuel
ran out).
-/

set_option autoImplicit false

namespace Vistk

/-- Process and cluster names (`process::name_t`). -/
abbrev Name := String

/-- Port names (`process::port_t`). -/
abbrev Port := String

/-- `process::port_addr_t`: a (name, port) pair. -/
abbrev PortAddr := Name × Port

/-- `process::connection_t`: (upstream address, downstream address). -/
abbrev Connection := PortAddr × PortAddr

/-- `pipeline::priv::cluster_connection_type_t`. -/
inductive ClusterConnType where
  | cluster_upstream
  | cluster_downstream
deriving DecidableEq, Repr

/-- `pipeline::priv::cluster_connection_t`. -/
abbrev ClusterConnection := Connection × ClusterConnType

/-- `pipeline::priv::direction_t` for type pinnings. -/
inductive Direction where
  | push_upstream
  | push_downstream
deriving DecidableEq, Repr

/-- `pipeline::priv::type_pinning_t`. -/
abbrev TypePinning := Connection × Direction

/-- `pipeline::priv::port_type_status`. -/
inductive PortTypeStatus where
  | type_deferred
  | type_mismatch
  | type_compatible
deriving DecidableEq, Repr

/-- Modelled from the spec: the `any` port type string constant
(`process::type_any`; its definition lives in `process.cxx`, which is
not among the provided sources). Per the spec it "accepts or produces
any concrete type". -/
def type_any : String := "any"

/-- Modelled from the spec: the `data-dependent` port type string
constant (`process::type_data_dependent`, defined outside the
provided sources). -/
def type_data_dependent : String := "data-dependent"

/-- Modelled from the spec: the common string prefix of the
`flow-dependent[tag]` port type family
(`process::type_flow_dependent`, defined outside the provided
sources); the code classifies a type as flow-dependent with a
starts-with test against this constant. -/
def type_flow_dependent : String := "flow-dependent["

/-- Modelled from the spec: the `output-const` port flag constant
(`process::flag_output_const`, defined outside the provided sources). -/
def flag_output_const : String := "output-const"

/-- Modelled from the spec: the `input-mutable` port flag constant
(`process::flag_input_mutable`, defined outside the provided sources). -/
def flag_input_mutable : String := "input-mutable"

/-- Modelled from the spec: the `required` port flag constant
(`process::flag_required`, defined outside the provided sources). -/
def flag_required : String := "required"

/-- Modelled from the spec: the `input-nodep` port flag constant
(`process::flag_input_nodep`, defined outside the provided sources). -/
def flag_input_nodep : String := "input-nodep"

/-- `process::port_info_t`: type string, flag set, frequency.
A frequency of `0` encodes "unknown" (boost rationals are falsy
exactly when zero, which is how `check_port_frequencies` tests for an
unset port frequency). -/
structure PortInfo where
  ptype : String
  flags : List String
  frequency : ℚ
deriving DecidableEq, Repr

/-- The data of a plain process the builder consults: its name and its
input/output port-info tables (`input_port_info` / `output_port_info`
are lookups that throw `no_such_port` on a missing port). -/
structure ProcessDef where
  pname : Name
  input_infos : List (Port × PortInfo)
  output_infos : List (Port × PortInfo)
deriving DecidableEq, Repr

/-- The non-recursive data of a cluster: its name, internal
connections, and input/output mappings (each mapping is a connection
between an external cluster-port address and an internal child-port
address). -/
structure ClusterData where
  cname : Name
  internal_conns : List Connection
  input_maps : List Connection
  output_maps : List Connection
deriving DecidableEq, Repr

/-- A process object as handed to `pipeline::add_process`: either a
plain process or a cluster with child objects. -/
inductive ProcObj where
  | plain (pd : ProcessDef)
  | cluster (cd : ClusterData) (children : List ProcObj)
deriving Repr

/-- The name of a process object (`process::name()`). -/
def ProcObj.objName : ProcObj → Name
  | .plain pd => pd.pname
  | .cluster cd _ => cd.cname

/-- Lexicographic comparison of character lists, the embedding of
`std::string` `operator<` (`std::map`'s key order). -/
def charListLt : List Char → List Char → Bool
  | [], [] => false
  | [], _ :: _ => true
  | _ :: _, [] => false
  | a :: as, b :: bs =>
      if a.toNat < b.toNat then true
      else if b.toNat < a.toNat then false
      else charListLt as bs

/-- `std::string` `operator<`. -/
def strLt (a b : String) : Bool := charListLt a.data b.data

/-- `boost::starts_with` on strings: the second argument is a prefix
of the first. -/
def strStartsWith (s pre : String) : Bool := pre.data.isPrefixOf s.data

/-- Key-sorted insert-or-assign, the embedding of `std::map`
assignment `m[k] = v`. -/
def mapSet {α : Type} : List (Name × α) → Name → α → List (Name × α)
  | [], k, v => [(k, v)]
  | (k₁, v₁) :: rest, k, v =>
      if k = k₁ then (k, v) :: rest
      else if strLt k k₁ then (k, v) :: (k₁, v₁) :: rest
      else (k₁, v₁) :: mapSet rest k v

/-- `std::map::find`: first value bound to the key, if any. -/
def mapFind {α : Type} : List (Name × α) → Name → Option α
  | [], _ => none
  | (k₁, v₁) :: rest, k => if k = k₁ then some v₁ else mapFind rest k

/-- `std::map::erase` by key. -/
def mapErase {α : Type} : List (Name × α) → Name → List (Name × α)
  | [], _ => []
  | (k₁, v₁) :: rest, k => if k = k₁ then mapErase rest k else (k₁, v₁) :: mapErase rest k

/-- The possible exceptions thrown by the builder
(`pipeline_exception` subclasses plus `std::logic_error`). -/
inductive PipelineError where
  | null_pipeline_config
  | null_process_addition
  | add_after_setup (name : Name)
  | duplicate_process_name (name : Name)
  | no_such_process (name : Name)
  | remove_after_setup (name : Name)
  | connection_after_setup (un : Name) (up : Port) (dn : Name) (dp : Port)
  | disconnection_after_setup (un : Name) (up : Port) (dn : Name) (dp : Port)
  | no_such_port (name : Name) (port : Port)
  | connection_flag_mismatch (un : Name) (up : Port) (dn : Name) (dp : Port)
  | connection_type_mismatch (un : Name) (up : Port) (ut : String) (dn : Name) (dp : Port) (dt : String)
  | pipeline_duplicate_setup
  | no_processes
  | pipeline_not_setup
  | pipeline_not_ready
  | reset_running_pipeline
  | untyped_data_dependent (name : Name) (port : Port)
  | untyped_connection
  | frequency_mismatch (un : Name) (up : Port) (uf : ℚ) (dn : Name) (dp : Port) (df : ℚ)
  | missing_connection (name : Name) (port : Port)
  | orphaned_processes
  | not_a_dag
  | logic_error (reason : String)
deriving DecidableEq, Repr

/-- The private state of `pipeline` (`pipeline::priv`): the connection
book, the registries, and the lifecycle flags. -/
structure PipelineState where
  planned_connections : List Connection
  connections : List Connection
  process_map : List (Name × ProcessDef)
  cluster_map : List (Name × ProcObj)
  edge_map : List (Nat × Nat)
  process_parent_map : List (Name × Name)
  parent_stack : List Name
  data_dep_connections : List Connection
  cluster_connections : List ClusterConnection
  untyped_connections : List Connection
  type_pinnings : List TypePinning
  setup : Bool
  setup_in_progress : Bool
  setup_successful : Bool
  running : Bool

/-- The freshly constructed builder state (`pipeline::priv::priv`). -/
def initialState : PipelineState where
  planned_connections := []
  connections := []
  process_map := []
  cluster_map := []
  edge_map := []
  process_parent_map := []
  parent_stack := []
  data_dep_connections := []
  cluster_connections := []
  untyped_connections := []
  type_pinnings := []
  setup := false
  setup_in_progress := false
  setup_successful := false
  running := false

/-- `pipeline::priv::check_connection_types`: classify a candidate
connection from its two port type strings, appending it to the
matching pending list as a side effect. -/
def check_connection_types (st : PipelineState) (connection : Connection)
    (up_type down_type : String) : PipelineState × PortTypeStatus :=
  let up_data_dep := up_type = type_data_dependent
  if up_data_dep then
    ({ st with data_dep_connections := st.data_dep_connections ++ [connection] },
     .type_deferred)
  else
    let up_flow_dep := strStartsWith up_type type_flow_dependent
    let down_flow_dep := strStartsWith down_type type_flow_dependent
    if up_flow_dep || down_flow_dep then
      if up_flow_dep && down_flow_dep then
        ({ st with untyped_connections := st.untyped_connections ++ [connection] },
         .type_deferred)
      else if up_flow_dep then
        ({ st with type_pinnings := st.type_pinnings ++ [(connection, .push_upstream)] },
         .type_deferred)
      else
        ({ st with type_pinnings := st.type_pinnings ++ [(connection, .push_downstream)] },
         .type_deferred)
    else if up_type ≠ type_any ∧ down_type ≠ type_any ∧ up_type ≠ down_type then
      (st, .type_mismatch)
    else
      (st, .type_compatible)

/-- `pipeline::priv::check_connection_flags`: the connection passes
unless the upstream flags contain `output-const` and the downstream
flags contain `input-mutable`. -/
def check_connection_flags (up_flags down_flags : List String) : Bool :=
  let is_const := up_flags.contains flag_output_const
  let requires_mutable := down_flags.contains flag_input_mutable
  if is_const && requires_mutable then
    false
  else
    true

/-- `pipeline::process_by_name`. -/
def process_by_name (st : PipelineState) (name : Name) : Except PipelineError ProcessDef :=
  match mapFind st.process_map name with
  | none => .error (.no_such_process name)
  | some p => .ok p

/-- `pipeline::process_names`: the keys of the process map, in map
(sorted) order. -/
def process_names (st : PipelineState) : List Name :=
  st.process_map.map (fun e => e.1)

/-- `pipeline::cluster_by_name`. -/
def cluster_by_name (st : PipelineState) (name : Name) : Except PipelineError ProcObj :=
  match mapFind st.cluster_map name with
  | none => .error (.no_such_process name)
  | some c => .ok c

/-- `process::output_port_info`: throws `no_such_port` when absent. -/
def output_port_info (p : ProcessDef) (port : Port) : Except PipelineError PortInfo :=
  match p.output_infos.lookup port with
  | none => .error (.no_such_port p.pname port)
  | some i => .ok i

/-- `process::input_port_info`: throws `no_such_port` when absent. -/
def input_port_info (p : ProcessDef) (port : Port) : Except PipelineError PortInfo :=
  match p.input_infos.lookup port with
  | none => .error (.no_such_port p.pname port)
  | some i => .ok i

/-- `pipeline::connect`: refuse after setup (unless inside a setup
pass), record in *planned* for user calls, divert cluster endpoints
to *cluster-pending*, then run the flag check and the type-check
kernel and append to *resolved* when compatible. -/
def connect (st : PipelineState) (upstream_name : Name) (upstream_port : Port)
    (downstream_name : Name) (downstream_port : Port) :
    Except PipelineError PipelineState :=
  if st.setup && !st.setup_in_progress then
    .error (.connection_after_setup upstream_name upstream_port downstream_name downstream_port)
  else
    let connection : Connection :=
      ((upstream_name, upstream_port), (downstream_name, downstream_port))
    let st :=
      if !st.setup_in_progress then
        { st with planned_connections := st.planned_connections ++ [connection] }
      else
        st
    let upstream_is_cluster := (mapFind st.cluster_map upstream_name).isSome
    let downstream_is_cluster := (mapFind st.cluster_map downstream_name).isSome
    if upstream_is_cluster || downstream_is_cluster then
      if upstream_is_cluster then
        .ok { st with cluster_connections :=
                st.cluster_connections ++ [(connection, .cluster_upstream)] }
      else
        .ok { st with cluster_connections :=
                st.cluster_connections ++ [(connection, .cluster_downstream)] }
    else
      match process_by_name st upstream_name with
      | .error e => .error e
      | .ok up_proc =>
      match process_by_name st downstream_name with
      | .error e => .error e
      | .ok down_proc =>
      match output_port_info up_proc upstream_port with
      | .error e => .error e
      | .ok up_info =>
      match input_port_info down_proc downstream_port with
      | .error e => .error e
      | .ok down_info =>
      if !check_connection_flags up_info.flags down_info.flags then
        .error (.connection_flag_mismatch upstream_name upstream_port
                  downstream_name downstream_port)
      else
        match check_connection_types st connection up_info.ptype down_info.ptype with
        | (st₁, .type_deferred) => .ok st₁
        | (_, .type_mismatch) =>
            .error (.connection_type_mismatch upstream_name upstream_port up_info.ptype
                      downstream_name downstream_port down_info.ptype)
        | (st₁, .type_compatible) =>
            .ok { st₁ with connections := st₁.connections ++ [connection] }

/-- A setup pass as run inside `setup_pipeline`'s `try` block: it
transforms the private state and either finishes or throws. A C++
exception leaves the mutations made so far in place, so the thrown
case still carries the state. -/
abbrev SetupPass := PipelineState → PipelineState × Option PipelineError

/-- Run the body of `setup_pipeline`'s `try` block: the passes in
order, stopping at the first failure. -/
def run_passes : List SetupPass → PipelineState → PipelineState × Option PipelineError
  | [], st => (st, none)
  | p :: ps, st =>
      match p st with
      | (st₁, none) => run_passes ps st₁
      | (st₁, some e) => (st₁, some e)

/-- `pipeline::setup_pipeline`, with the ten passes of its `try`
block abstracted as a pass list (their bodies call external process
hooks such as `configure()`): refuse a duplicate setup, require a
non-empty registry, raise the `setup`/`setup_in_progress` flags, run
the passes, and on any failure clear only `setup_in_progress` before
rethrowing; on success clear `setup_in_progress` and raise
`setup_successful`. -/
def setup_pipeline (passes : List SetupPass) (st : PipelineState) :
    PipelineState × Option PipelineError :=
  if st.setup then
    (st, some .pipeline_duplicate_setup)
  else if st.process_map.isEmpty then
    (st, some .no_processes)
  else
    let st₁ := { st with setup := true, setup_in_progress := true, setup_successful := false }
    match run_passes passes st₁ with
    | (st₂, some e) => ({ st₂ with setup_in_progress := false }, some e)
    | (st₂, none) => ({ st₂ with setup_in_progress := false, setup_successful := true }, none)

/-- `pipeline::priv::ensure_setup`: throw `pipeline_not_setup` before
setup has begun, `pipeline_not_ready` when setup ran but neither is in
progress nor succeeded. -/
def ensure_setup (st : PipelineState) : Option PipelineError :=
  if !st.setup then
    some .pipeline_not_setup
  else if !st.setup_in_progress && !st.setup_successful then
    some .pipeline_not_ready
  else
    none

/-- The loop body of `pipeline::sender_for_port`: first resolved
connection into the given input address, returning its upstream
address, or the default-constructed (empty) address. -/
def sender_find : List Connection → Name → Port → PortAddr
  | [], _, _ => ("", "")
  | c :: rest, name, port =>
      if c.2.1 = name ∧ c.2.2 = port then c.1 else sender_find rest name port

/-- `pipeline::sender_for_port`. -/
def sender_for_port (st : PipelineState) (name : Name) (port : Port) :
    Except PipelineError PortAddr :=
  match ensure_setup st with
  | some e => .error e
  | none => .ok (sender_find st.connections name port)

/-- The loop body of `pipeline::upstream_for_port`: on the first
resolved connection into the given input address, return the process
found in the process map for the upstream name; with no match return
the null process handle. -/
def upstream_find : List Connection → List (Name × ProcessDef) → Name → Port →
    Option ProcessDef
  | [], _, _, _ => none
  | c :: rest, pm, name, port =>
      if c.2.1 = name ∧ c.2.2 = port then mapFind pm c.1.1
      else upstream_find rest pm name port

/-- `pipeline::upstream_for_port`. -/
def upstream_for_port (st : PipelineState) (name : Name) (port : Port) :
    Except PipelineError (Option ProcessDef) :=
  match ensure_setup st with
  | some e => .error e
  | none => .ok (upstream_find st.connections st.process_map name port)

/-- `std::set<name_t>` sorted insertion (dedup). -/
def nameSetInsert : List Name → Name → List Name
  | [], n => [n]
  | m :: rest, n =>
      if n = m then m :: rest
      else if strLt n m then n :: m :: rest
      else m :: nameSetInsert rest n

/-- `pipeline::upstream_for_process`: the set of upstream names over
resolved connections into `name`, mapped through the process map. -/
def upstream_for_process (st : PipelineState) (name : Name) :
    Except PipelineError (List ProcessDef) :=
  match ensure_setup st with
  | some e => .error e
  | none =>
      let names := st.connections.foldl
        (fun acc c => if c.2.1 = name then nameSetInsert acc c.1.1 else acc) []
      .ok (names.filterMap (fun n => mapFind st.process_map n))

/-- `pipeline::downstream_for_process`: the set of downstream names
over resolved connections out of `name`, mapped through the process
map. -/
def downstream_for_process (st : PipelineState) (name : Name) :
    Except PipelineError (List ProcessDef) :=
  match ensure_setup st with
  | some e => .error e
  | none =>
      let names := st.connections.foldl
        (fun acc c => if c.1.1 = name then nameSetInsert acc c.2.1 else acc) []
      .ok (names.filterMap (fun n => mapFind st.process_map n))

/-- The loop body of `pipeline::edge_for_connection`: index of the
first resolved connection equal to the queried four-address tuple. -/
def edge_find : List Connection → Nat → Connection → Option Nat
  | [], _, _ => none
  | c :: rest, i, target => if c = target then some i else edge_find rest (i + 1) target

/-- `pipeline::edge_for_connection`: under the setup guard, find the
resolved connection matching all four addresses and return the edge
stored at its index (the null handle when the tuple is absent, or
when the edge map holds nothing at that index — `edge_map[i]`
default-constructs a null edge there). -/
def edge_for_connection (st : PipelineState) (upstream_name : Name) (upstream_port : Port)
    (downstream_name : Name) (downstream_port : Port) :
    Except PipelineError (Option Nat) :=
  match ensure_setup st with
  | some e => .error e
  | none =>
      match edge_find st.connections 0
          ((upstream_name, upstream_port), (downstream_name, downstream_port)) with
      | none => .ok none
      | some i => .ok ((st.edge_map.lookup i).map id)

/-- The loop body of `pipeline::input_edge_for_port`: walk the edge
map; for each index, the resolved connection at that index (vector
indexing, in range after `make_connections`) is compared against the
queried downstream address. -/
def input_edge_find : List (Nat × Nat) → List Connection → Name → Port → Option Nat
  | [], _, _, _ => none
  | (i, e) :: rest, conns, name, port =>
      match conns[i]? with
      | some c =>
          if c.2.1 = name ∧ c.2.2 = port then some e
          else input_edge_find rest conns name port
      | none => input_edge_find rest conns name port

/-- `pipeline::input_edge_for_port`. -/
def input_edge_for_port (st : PipelineState) (name : Name) (port : Port) :
    Except PipelineError (Option Nat) :=
  match ensure_setup st with
  | some e => .error e
  | none => .ok (input_edge_find st.edge_map st.connections name port)

/-- `pipeline::priv::is_addr_on`. -/
def is_addr_on (name : Name) (addr : PortAddr) : Bool :=
  name = addr.1

/-- `pipeline::priv::is_connection_with`. -/
def is_connection_with (name : Name) (connection : Connection) : Bool :=
  is_addr_on name connection.1 || is_addr_on name connection.2

/-- `pipeline::priv::is_cluster_connection_with`. -/
def is_cluster_connection_with (name : Name) (cconnection : ClusterConnection) : Bool :=
  is_connection_with name cconnection.1

/-- `pipeline::priv::remove_from_pipeline`: purge every connection
referencing `name` on either side from the five connection lists. -/
def remove_from_pipeline (st : PipelineState) (name : Name) : PipelineState :=
  { st with
    planned_connections := st.planned_connections.filter
      (fun c => !is_connection_with name c)
    connections := st.connections.filter (fun c => !is_connection_with name c)
    data_dep_connections := st.data_dep_connections.filter
      (fun c => !is_connection_with name c)
    untyped_connections := st.untyped_connections.filter
      (fun c => !is_connection_with name c)
    cluster_connections := st.cluster_connections.filter
      (fun c => !is_cluster_connection_with name c) }

/-- The child names a cluster removal iterates over
(`cluster->processes()`, taking each child's `name()`). -/
def ProcObj.childNames : ProcObj → List Name
  | .plain _ => []
  | .cluster _ children => children.map ProcObj.objName

mutual

/-- `pipeline::remove_process`, with fuel for the recursion into
cluster children (`none` = fuel ran out): refuse after setup; for a
registered cluster, recursively remove each child and erase the
cluster from the cluster map (the cluster branch returns without
purging connections); otherwise require the name in the process map,
erase it, and purge its connections via `remove_from_pipeline`. -/
def remove_process : Nat → PipelineState → Name →
    Option (Except PipelineError PipelineState)
  | 0, _, _ => none
  | fuel + 1, st, name =>
      if st.setup then
        some (.error (.remove_after_setup name))
      else
        match mapFind st.cluster_map name with
        | some cl =>
            match remove_children fuel st cl.childNames with
            | none => none
            | some (.error e) => some (.error e)
            | some (.ok st₁) =>
                some (.ok { st₁ with cluster_map := mapErase st₁.cluster_map name })
        | none =>
            match mapFind st.process_map name with
            | none => some (.error (.no_such_process name))
            | some _ =>
                some (.ok (remove_from_pipeline
                  { st with process_map := mapErase st.process_map name } name))

/-- Sequential removal of a cluster's children. -/
def remove_children : Nat → PipelineState → List Name →
    Option (Except PipelineError PipelineState)
  | _, st, [] => some (.ok st)
  | fuel, st, n :: rest =>
      match remove_process fuel st n with
      | none => none
      | some (.error e) => some (.error e)
      | some (.ok st₁) => remove_children fuel st₁ rest

end

/-- `pipeline::priv::check_duplicate_name`: throw when the name is a
key in either the process map or the cluster map. -/
def check_duplicate_name (st : PipelineState) (name : Name) : Option PipelineError :=
  if (mapFind st.process_map name).isSome || (mapFind st.cluster_map name).isSome then
    some (.duplicate_process_name name)
  else
    none

/-- Apply a cluster's internal connections in order via `connect`. -/
def connect_list : PipelineState → List Connection → Except PipelineError PipelineState
  | st, [] => .ok st
  | st, c :: rest =>
      match connect st c.1.1 c.1.2 c.2.1 c.2.2 with
      | .error e => .error e
      | .ok st₁ => connect_list st₁ rest

mutual

/-- `pipeline::add_process`, with fuel for the recursion into cluster
children (`none` = fuel ran out). A null handle throws; adding after
setup throws; a duplicate name in either map throws. The parent is
the top of the parent stack (empty name when the stack is empty). A
cluster is stored in the cluster map, pushed on the parent stack, its
children added recursively, its internal connections applied via
`connect`, and the stack popped; a plain process is stored in the
process map. -/
def add_process : Nat → PipelineState → Option ProcObj →
    Option (Except PipelineError PipelineState)
  | 0, _, _ => none
  | _ + 1, _, none => some (.error .null_process_addition)
  | fuel + 1, st, some p =>
      if st.setup then
        some (.error (.add_after_setup p.objName))
      else
        let name := p.objName
        match check_duplicate_name st name with
        | some e => some (.error e)
        | none =>
            let parent := (st.parent_stack.head?).getD ""
            match p with
            | .cluster _ children =>
                let st₁ :=
                  { st with
                    cluster_map := mapSet st.cluster_map name p
                    process_parent_map := mapSet st.process_parent_map name parent
                    parent_stack := name :: st.parent_stack }
                match add_children fuel st₁ children with
                | none => none
                | some (.error e) => some (.error e)
                | some (.ok st₂) =>
                    match p with
                    | .cluster cd _ =>
                        match connect_list st₂ cd.internal_conns with
                        | .error e => some (.error e)
                        | .ok st₃ =>
                            some (.ok { st₃ with parent_stack := st₃.parent_stack.tail })
                    | .plain _ => some (.error (.logic_error "unreachable"))
            | .plain pd =>
                some (.ok
                  { st with
                    process_map := mapSet st.process_map name pd
                    process_parent_map := mapSet st.process_parent_map name parent })
termination_by fuel _ _ => (fuel, 0)

/-- Sequential addition of a cluster's children. -/
def add_children : Nat → PipelineState → List ProcObj →
    Option (Except PipelineError PipelineState)
  | _, st, [] => some (.ok st)
  | fuel, st, c :: rest =>
      match add_process fuel st (some c) with
      | none => none
      | some (.error e) => some (.error e)
      | some (.ok st₁) => add_children fuel st₁ rest
termination_by fuel _ cs => (fuel, cs.length + 1)

end

/-- The accessors of a cluster object used by the flattener
(`process_cluster::input_mappings` / `output_mappings`). -/
def ProcObj.inputMappings : ProcObj → List Connection
  | .plain _ => []
  | .cluster cd _ => cd.input_maps

/-- `process_cluster::output_mappings`. -/
def ProcObj.outputMappings : ProcObj → List Connection
  | .plain _ => []
  | .cluster cd _ => cd.output_maps

/-- Processing of one cluster-pending entry inside the loop body of
`pipeline::priv::map_cluster_connections`. Upstream-cluster entries
filter the cluster's output mappings to those whose downstream
(external) address equals the pending upstream address and demand
exactly one; downstream-cluster entries filter the input mappings to
those whose upstream (external) address equals the pending downstream
address, demand at least one, and replay *every* match. -/
def map_cluster_one (st : PipelineState) (cconnection : ClusterConnection) :
    Except PipelineError PipelineState :=
  let connection := cconnection.1
  let upstream_addr := connection.1
  let downstream_addr := connection.2
  match cconnection.2 with
  | .cluster_upstream =>
      let cluster_name := upstream_addr.1
      let cluster_port := upstream_addr.2
      match mapFind st.cluster_map cluster_name with
      | none => .error (.no_such_process cluster_name)
      | some cluster =>
          let mapped := cluster.outputMappings.filter (fun m => m.2 = upstream_addr)
          match mapped with
          | [] => .error (.no_such_port cluster_name cluster_port)
          | [m] => connect st m.1.1 m.1.2 downstream_addr.1 downstream_addr.2
          | _ :: _ :: _ =>
              .error (.logic_error
                "Failed to ensure that only one output mapping is allowed on a cluster port")
  | .cluster_downstream =>
      let cluster_name := downstream_addr.1
      let cluster_port := downstream_addr.2
      match mapFind st.cluster_map cluster_name with
      | none => .error (.no_such_process cluster_name)
      | some cluster =>
          let mapped := cluster.inputMappings.filter (fun m => m.1 = downstream_addr)
          match mapped with
          | [] => .error (.no_such_port cluster_name cluster_port)
          | _ :: _ =>
              connect_list st (mapped.map (fun m => (upstream_addr, m.2)))

/-- One sweep of `map_cluster_connections` over a snapshot of the
cluster-pending list. -/
def map_cluster_sweep : PipelineState → List ClusterConnection →
    Except PipelineError PipelineState
  | st, [] => .ok st
  | st, cc :: rest =>
      match map_cluster_one st cc with
      | .error e => .error e
      | .ok st₁ => map_cluster_sweep st₁ rest

/-- `pipeline::priv::map_cluster_connections`, with fuel for the
self-recursion (`none` = fuel ran out): snapshot and clear the
cluster-pending list, process each entry, and recurse while replayed
connections landed on further cluster ports. -/
def map_cluster_connections : Nat → PipelineState →
    Option (Except PipelineError PipelineState)
  | 0, _ => none
  | fuel + 1, st =>
      let snapshot := st.cluster_connections
      let st₁ := { st with cluster_connections := [] }
      match map_cluster_sweep st₁ snapshot with
      | .error e => some (.error e)
      | .ok st₂ =>
          if st₂.cluster_connections.isEmpty then
            some (.ok st₂)
          else
            map_cluster_connections fuel st₂

/-- One step of the worklist loop in
`pipeline::priv::check_port_frequencies`. -/
inductive FreqStepResult where
  | skip
  | assigned (fm : List (Name × ℚ))
  | requeue
  | fail (e : PipelineError)

/-- The loop body of `check_port_frequencies` for one dequeued
connection: skip when either port frequency is unset (zero); seed the
map at the upstream process when the map is empty and neither
endpoint is assigned; validate when both endpoints are assigned;
propagate across the edge when exactly one is; requeue otherwise. -/
def freq_step (st : PipelineState) (fm : List (Name × ℚ)) (connection : Connection) :
    FreqStepResult :=
  let upstream_name := connection.1.1
  let upstream_port := connection.1.2
  let downstream_name := connection.2.1
  let downstream_port := connection.2.2
  match process_by_name st upstream_name with
  | .error e => .fail e
  | .ok up_proc =>
  match output_port_info up_proc upstream_port with
  | .error e => .fail e
  | .ok up_info =>
  match process_by_name st downstream_name with
  | .error e => .fail e
  | .ok down_proc =>
  match input_port_info down_proc downstream_port with
  | .error e => .fail e
  | .ok down_info =>
  let up_port_freq := up_info.frequency
  let down_port_freq := down_info.frequency
  if up_port_freq = 0 ∨ down_port_freq = 0 then
    .skip
  else
    let i_up := mapFind fm upstream_name
    let i_down := mapFind fm downstream_name
    let seeded := i_up = none ∧ i_down = none ∧ fm = []
    let fm₁ := if seeded then mapSet fm upstream_name 1 else fm
    let have_upstream := if seeded then true else i_up.isSome
    let have_downstream := i_down.isSome
    if have_upstream ∧ have_downstream then
      let up_proc_freq := (mapFind fm₁ upstream_name).getD 0
      let edge_freq := up_proc_freq * up_port_freq
      let expect_freq := edge_freq / down_port_freq
      let down_proc_freq := (mapFind fm₁ downstream_name).getD 0
      if down_proc_freq ≠ expect_freq then
        .fail (.frequency_mismatch upstream_name upstream_port up_proc_freq
                 downstream_name downstream_port down_proc_freq)
      else
        .assigned fm₁
    else if have_upstream then
      let up_proc_freq := (mapFind fm₁ upstream_name).getD 0
      let edge_freq := up_proc_freq * up_port_freq
      let expect_freq := edge_freq / down_port_freq
      .assigned (mapSet fm₁ downstream_name expect_freq)
    else if have_downstream then
      let down_proc_freq := (mapFind fm₁ downstream_name).getD 0
      let edge_freq := down_proc_freq * down_port_freq
      let expect_freq := edge_freq / up_port_freq
      .assigned (mapSet fm₁ upstream_name expect_freq)
    else
      .requeue

/-- The worklist loop of `check_port_frequencies`, with fuel (`none`
= fuel ran out): requeued connections go to the back of the queue. -/
def freq_loop (st : PipelineState) : Nat → List Connection → List (Name × ℚ) →
    Option (Except PipelineError (List (Name × ℚ)))
  | _, [], fm => some (.ok fm)
  | 0, _ :: _, _ => none
  | fuel + 1, c :: queue, fm =>
      match freq_step st fm c with
      | .skip => freq_loop st fuel queue fm
      | .assigned fm₁ => freq_loop st fuel queue fm₁
      | .requeue => freq_loop st fuel (queue ++ [c]) fm
      | .fail e => some (.error e)

/-- `pipeline::priv::check_port_frequencies`, returning the sequence
of `set_core_frequency` calls it makes, as (process name, rational)
pairs in call order: with exactly one registered process, a single
call at `1/1`; otherwise run the worklist over the resolved
connections, take the lcm of the denominators of all assigned
frequencies, and call `set_core_frequency(lcm * freq)` on each
process in the frequency map. -/
def check_port_frequencies (st : PipelineState) (fuel : Nat) :
    Option (Except PipelineError (List (Name × ℚ))) :=
  match st.process_map with
  | [only] => some (.ok [(only.1, 1)])
  | _ =>
      match freq_loop st fuel st.connections [] with
      | none => none
      | some (.error e) => some (.error e)
      | some (.ok fm) =>
          let freq_gcd : ℕ := fm.foldl (fun g p => Nat.lcm g p.2.den) 1
          some (.ok (fm.map (fun p => (p.1, (freq_gcd : ℚ) * p.2))))

/-! ## Theorems -/

/-- Case split on the lifecycle flags for `connect` calls that pass
the after-setup guard. -/
theorem setup_guard_cases (st : PipelineState)
    (hflow : ¬(st.setup = true ∧ st.setup_in_progress = false)) :
    st.setup_in_progress = true ∨ (st.setup = false ∧ st.setup_in_progress = false) := by
  cases hsp : st.setup_in_progress
  · cases hs : st.setup
    · exact Or.inr ⟨rfl, rfl⟩
    · exact absurd ⟨hs, hsp⟩ hflow
  · exact Or.inl rfl

/-- C1: for a `connect` between two registered non-cluster processes
(setup guard passing, both port infos found, flag check passing) the
type-check kernel classifies the connection per the spec table:
upstream `data-dependent` is appended to the data-dependent list and
deferred (no error, not resolved); both sides flow-dependent goes to
the flow-untyped list; exactly one side flow-dependent goes to the
flow-pinned list with the push direction toward the flow-dependent
side; two unequal concrete non-`any` types fail with `TypeMismatch`;
all remaining cases (a side `any`, or equal concrete types) are
appended to the resolved list. -/
theorem claim_C1_connect_type_classification
    (st : PipelineState) (un : Name) (up : Port) (dn : Name) (dp : Port)
    (upP dnP : ProcessDef) (up_info down_info : PortInfo)
    (hflow : ¬(st.setup = true ∧ st.setup_in_progress = false))
    (hucl : mapFind st.cluster_map un = none)
    (hdcl : mapFind st.cluster_map dn = none)
    (hupm : mapFind st.process_map un = some upP)
    (hdnm : mapFind st.process_map dn = some dnP)
    (hui : upP.output_infos.lookup up = some up_info)
    (hdi : dnP.input_infos.lookup dp = some down_info)
    (hfl : check_connection_flags up_info.flags down_info.flags = true) :
    (up_info.ptype = type_data_dependent →
      ∃ st₁, connect st un up dn dp = .ok st₁ ∧
        st₁.data_dep_connections = st.data_dep_connections ++ [((un, up), (dn, dp))] ∧
        st₁.connections = st.connections ∧
        st₁.untyped_connections = st.untyped_connections ∧
        st₁.type_pinnings = st.type_pinnings) ∧
    (up_info.ptype ≠ type_data_dependent →
      strStartsWith up_info.ptype type_flow_dependent = true →
      strStartsWith down_info.ptype type_flow_dependent = true →
      ∃ st₁, connect st un up dn dp = .ok st₁ ∧
        st₁.untyped_connections = st.untyped_connections ++ [((un, up), (dn, dp))] ∧
        st₁.connections = st.connections ∧
        st₁.data_dep_connections = st.data_dep_connections ∧
        st₁.type_pinnings = st.type_pinnings) ∧
    (up_info.ptype ≠ type_data_dependent →
      strStartsWith up_info.ptype type_flow_dependent = true →
      strStartsWith down_info.ptype type_flow_dependent = false →
      ∃ st₁, connect st un up dn dp = .ok st₁ ∧
        st₁.type_pinnings =
          st.type_pinnings ++ [(((un, up), (dn, dp)), .push_upstream)] ∧
        st₁.connections = st.connections ∧
        st₁.data_dep_connections = st.data_dep_connections ∧
        st₁.untyped_connections = st.untyped_connections) ∧
    (up_info.ptype ≠ type_data_dependent →
      strStartsWith up_info.ptype type_flow_dependent = false →
      strStartsWith down_info.ptype type_flow_dependent = true →
      ∃ st₁, connect st un up dn dp = .ok st₁ ∧
        st₁.type_pinnings =
          st.type_pinnings ++ [(((un, up), (dn, dp)), .push_downstream)] ∧
        st₁.connections = st.connections ∧
        st₁.data_dep_connections = st.data_dep_connections ∧
        st₁.untyped_connections = st.untyped_connections) ∧
    (up_info.ptype ≠ type_data_dependent →
      strStartsWith up_info.ptype type_flow_dependent = false →
      strStartsWith down_info.ptype type_flow_dependent = false →
      up_info.ptype ≠ type_any → down_info.ptype ≠ type_any →
      up_info.ptype ≠ down_info.ptype →
      connect st un up dn dp =
        .error (.connection_type_mismatch un up up_info.ptype dn dp down_info.ptype)) ∧
    (up_info.ptype ≠ type_data_dependent →
      strStartsWith up_info.ptype type_flow_dependent = false →
      strStartsWith down_info.ptype type_flow_dependent = false →
      (up_info.ptype = type_any ∨ down_info.ptype = type_any ∨
        up_info.ptype = down_info.ptype) →
      ∃ st₁, connect st un up dn dp = .ok st₁ ∧
        st₁.connections = st.connections ++ [((un, up), (dn, dp))] ∧
        st₁.data_dep_connections = st.data_dep_connections ∧
        st₁.untyped_connections = st.untyped_connections ∧
        st₁.type_pinnings = st.type_pinnings) := by
  refine ⟨?_, ?_, ?_, ?_, ?_, ?_⟩
  · intro hdd
    rcases setup_guard_cases st hflow with hsp | ⟨hs, hsp⟩
    · simp [connect, hsp, hucl, hdcl, hupm, hdnm, hui, hdi, hfl,
        process_by_name, output_port_info, input_port_info,
        check_connection_types, hdd]
    · simp [connect, hs, hsp, hucl, hdcl, hupm, hdnm, hui, hdi, hfl,
        process_by_name, output_port_info, input_port_info,
        check_connection_types, hdd]
  · intro hdd huf hdf
    rcases setup_guard_cases st hflow with hsp | ⟨hs, hsp⟩
    · simp [connect, hsp, hucl, hdcl, hupm, hdnm, hui, hdi, hfl,
        process_by_name, output_port_info, input_port_info,
        check_connection_types, hdd, huf, hdf]
    · simp [connect, hs, hsp, hucl, hdcl, hupm, hdnm, hui, hdi, hfl,
        process_by_name, output_port_info, input_port_info,
        check_connection_types, hdd, huf, hdf]
  · intro hdd huf hdf
    rcases setup_guard_cases st hflow with hsp | ⟨hs, hsp⟩
    · simp [connect, hsp, hucl, hdcl, hupm, hdnm, hui, hdi, hfl,
        process_by_name, output_port_info, input_port_info,
        check_connection_types, hdd, huf, hdf]
    · simp [connect, hs, hsp, hucl, hdcl, hupm, hdnm, hui, hdi, hfl,
        process_by_name, output_port_info, input_port_info,
        check_connection_types, hdd, huf, hdf]
  · intro hdd huf hdf
    rcases setup_guard_cases st hflow with hsp | ⟨hs, hsp⟩
    · simp [connect, hsp, hucl, hdcl, hupm, hdnm, hui, hdi, hfl,
        process_by_name, output_port_info, input_port_info,
        check_connection_types, hdd, huf, hdf]
    · simp [connect, hs, hsp, hucl, hdcl, hupm, hdnm, hui, hdi, hfl,
        process_by_name, output_port_info, input_port_info,
        check_connection_types, hdd, huf, hdf]
  · intro hdd huf hdf hua hda hne
    rcases setup_guard_cases st hflow with hsp | ⟨hs, hsp⟩
    · simp [connect, hsp, hucl, hdcl, hupm, hdnm, hui, hdi, hfl,
        process_by_name, output_port_info, input_port_info,
        check_connection_types, hdd, huf, hdf, hua, hda, hne]
    · simp [connect, hs, hsp, hucl, hdcl, hupm, hdnm, hui, hdi, hfl,
        process_by_name, output_port_info, input_port_info,
        check_connection_types, hdd, huf, hdf, hua, hda, hne]
  · intro hdd huf hdf hcompat
    have hc : ¬(up_info.ptype ≠ type_any ∧ down_info.ptype ≠ type_any ∧
        up_info.ptype ≠ down_info.ptype) := by
      rcases hcompat with h | h | h <;> simp [h]
    rcases setup_guard_cases st hflow with hsp | ⟨hs, hsp⟩
    · simp [connect, hsp, hucl, hdcl, hupm, hdnm, hui, hdi, hfl,
        process_by_name, output_port_info, input_port_info,
        check_connection_types, hdd, huf, hdf, hc]
    · simp [connect, hs, hsp, hucl, hdcl, hupm, hdnm, hui, hdi, hfl,
        process_by_name, output_port_info, input_port_info,
        check_connection_types, hdd, huf, hdf, hc]

/-- Fixture: a pair of registered processes with one port of each
type shape. -/
def exUpProc : ProcessDef where
  pname := "u"
  input_infos := []
  output_infos :=
    [("odd", ⟨type_data_dependent, [], 0⟩),
     ("ofl", ⟨"flow-dependent[A]", [], 0⟩),
     ("oint", ⟨"int", [], 0⟩),
     ("oany", ⟨type_any, [], 0⟩)]

/-- Fixture: the downstream process of the `connect` examples. -/
def exDownProc : ProcessDef where
  pname := "d"
  input_infos :=
    [("ifl", ⟨"flow-dependent[B]", [], 0⟩),
     ("iint", ⟨"int", [], 0⟩),
     ("istr", ⟨"string", [], 0⟩)]
  output_infos := []

/-- Fixture: a fresh builder holding the two example processes. -/
def exState : PipelineState :=
  { initialState with
    process_map := [("d", exDownProc), ("u", exUpProc)] }

/-- Witness for C1: on the concrete fixture, a data-dependent
upstream is deferred into the data-dependent list, and two unequal
concrete types produce a `TypeMismatch` error. -/
theorem claim_C1_connect_type_classification_witness :
    (∃ st₁, connect exState "u" "odd" "d" "iint" = .ok st₁ ∧
      st₁.data_dep_connections =
        exState.data_dep_connections ++ [(("u", "odd"), ("d", "iint"))] ∧
      st₁.connections = exState.connections ∧
      st₁.untyped_connections = exState.untyped_connections ∧
      st₁.type_pinnings = exState.type_pinnings) ∧
    connect exState "u" "oint" "d" "istr" =
      .error (.connection_type_mismatch "u" "oint" "int" "d" "istr" "string") := by
  constructor
  · exact (claim_C1_connect_type_classification exState "u" "odd" "d" "iint"
      exUpProc exDownProc ⟨type_data_dependent, [], 0⟩ ⟨"int", [], 0⟩
      (by decide) rfl rfl (by decide) (by decide)
      (by decide) (by decide) (by decide)).1 rfl
  · exact (claim_C1_connect_type_classification exState "u" "oint" "d" "istr"
      exUpProc exDownProc ⟨"int", [], 0⟩ ⟨"string", [], 0⟩
      (by decide) rfl rfl (by decide) (by decide)
      (by decide) (by decide) (by decide)).2.2.2.2.1
      (by decide) (by decide) (by decide) (by decide) (by decide) (by decide)

/-- C7: under the same registration hypotheses, `connect` fails with
`FlagMismatch` if and only if the upstream output port's flags
contain `output-const` and the downstream input port's flags contain
`input-mutable`. -/
theorem claim_C7_flag_mismatch_iff
    (st : PipelineState) (un : Name) (up : Port) (dn : Name) (dp : Port)
    (upP dnP : ProcessDef) (up_info down_info : PortInfo)
    (hflow : ¬(st.setup = true ∧ st.setup_in_progress = false))
    (hucl : mapFind st.cluster_map un = none)
    (hdcl : mapFind st.cluster_map dn = none)
    (hupm : mapFind st.process_map un = some upP)
    (hdnm : mapFind st.process_map dn = some dnP)
    (hui : upP.output_infos.lookup up = some up_info)
    (hdi : dnP.input_infos.lookup dp = some down_info) :
    connect st un up dn dp = .error (.connection_flag_mismatch un up dn dp) ↔
      (up_info.flags.contains flag_output_const = true ∧
       down_info.flags.contains flag_input_mutable = true) := by
  constructor
  · intro h
    by_contra hcon
    have hfl : check_connection_flags up_info.flags down_info.flags = true := by
      unfold check_connection_flags
      cases hc : up_info.flags.contains flag_output_const <;>
        cases hm : down_info.flags.contains flag_input_mutable <;> simp_all
    rcases setup_guard_cases st hflow with hsp | ⟨hs, hsp⟩ <;>
      by_cases hdd : up_info.ptype = type_data_dependent <;>
      by_cases huf : strStartsWith up_info.ptype type_flow_dependent = true <;>
      by_cases hdf : strStartsWith down_info.ptype type_flow_dependent = true <;>
      by_cases hmis : (up_info.ptype ≠ type_any ∧ down_info.ptype ≠ type_any ∧
        up_info.ptype ≠ down_info.ptype) <;>
      simp_all [connect, process_by_name, output_port_info, input_port_info,
        check_connection_types]
  · rintro ⟨hc, hm⟩
    have hfl : check_connection_flags up_info.flags down_info.flags = false := by
      unfold check_connection_flags
      simp only [hc, hm, Bool.and_true, if_true, reduceIte]
    rcases setup_guard_cases st hflow with hsp | ⟨hs, hsp⟩
    · simp [connect, hsp, hucl, hdcl, hupm, hdnm, hui, hdi, hfl,
        process_by_name, output_port_info, input_port_info]
    · simp [connect, hs, hsp, hucl, hdcl, hupm, hdnm, hui, hdi, hfl,
        process_by_name, output_port_info, input_port_info]

/-- Fixture: upstream process carrying `output-const` on its port. -/
def exConstProc : ProcessDef where
  pname := "u"
  input_infos := []
  output_infos := [("oc", ⟨"int", [flag_output_const], 0⟩)]

/-- Fixture: downstream process carrying `input-mutable` on its port. -/
def exMutProc : ProcessDef where
  pname := "d"
  input_infos := [("im", ⟨"int", [flag_input_mutable], 0⟩)]
  output_infos := []

/-- Fixture: builder holding the const/mutable pair. -/
def exFlagState : PipelineState :=
  { initialState with
    process_map := [("d", exMutProc), ("u", exConstProc)] }

/-- Witness for C7: on the concrete fixture the const-to-mutable
connection is rejected with `FlagMismatch`. -/
theorem claim_C7_flag_mismatch_iff_witness :
    connect exFlagState "u" "oc" "d" "im" =
      .error (.connection_flag_mismatch "u" "oc" "d" "im") := by
  exact (claim_C7_flag_mismatch_iff exFlagState "u" "oc" "d" "im"
    exConstProc exMutProc ⟨"int", [flag_output_const], 0⟩ ⟨"int", [flag_input_mutable], 0⟩
    (by decide) rfl rfl (by decide) (by decide) (by decide) (by decide)).mpr
    ⟨by decide, by decide⟩

/-- The three outcomes of `ensure_setup` as a function of the flags. -/
theorem ensure_setup_spec (st : PipelineState) :
    (st.setup = false → ensure_setup st = some .pipeline_not_setup) ∧
    (st.setup = true → st.setup_in_progress = false → st.setup_successful = false →
      ensure_setup st = some .pipeline_not_ready) ∧
    (st.setup = true → (st.setup_in_progress = true ∨ st.setup_successful = true) →
      ensure_setup st = none) := by
  refine ⟨fun h => by simp [ensure_setup, h], fun h hp hs => by simp [ensure_setup, h, hp, hs],
    fun h hv => ?_⟩
  rcases hv with hv | hv <;> simp [ensure_setup, h, hv]

/-- C8: every query guarded by `ensure_setup` — `upstream_for_process`,
`edge_for_connection`, `sender_for_port`, `input_edge_for_port` —
fails with `PipelineNotSetup` before setup has begun
(`setup = false`), fails with `PipelineNotReady` after a failed setup
attempt (`setup` set, not in progress, not successful), and performs
its lookup (returns a value) while a setup pass is in progress or
after a successful setup. -/
theorem claim_C8_query_setup_guard (st : PipelineState) (n : Name) (p : Port)
    (un : Name) (upp : Port) (dn : Name) (dpp : Port) :
    (st.setup = false →
      upstream_for_process st n = .error .pipeline_not_setup ∧
      edge_for_connection st un upp dn dpp = .error .pipeline_not_setup ∧
      sender_for_port st n p = .error .pipeline_not_setup ∧
      input_edge_for_port st n p = .error .pipeline_not_setup) ∧
    (st.setup = true → st.setup_in_progress = false → st.setup_successful = false →
      upstream_for_process st n = .error .pipeline_not_ready ∧
      edge_for_connection st un upp dn dpp = .error .pipeline_not_ready ∧
      sender_for_port st n p = .error .pipeline_not_ready ∧
      input_edge_for_port st n p = .error .pipeline_not_ready) ∧
    (st.setup = true → (st.setup_in_progress = true ∨ st.setup_successful = true) →
      (∃ v, upstream_for_process st n = .ok v) ∧
      (∃ v, edge_for_connection st un upp dn dpp = .ok v) ∧
      (∃ v, sender_for_port st n p = .ok v) ∧
      (∃ v, input_edge_for_port st n p = .ok v)) := by
  obtain ⟨h₁, h₂, h₃⟩ := ensure_setup_spec st
  refine ⟨?_, ?_, ?_⟩
  · intro h
    simp [upstream_for_process, edge_for_connection, sender_for_port,
      input_edge_for_port, h₁ h]
  · intro h hp hs
    simp [upstream_for_process, edge_for_connection, sender_for_port,
      input_edge_for_port, h₂ h hp hs]
  · intro h hv
    have hens := h₃ h hv
    refine ⟨?_, ?_, ?_, ?_⟩
    · simp only [upstream_for_process, hens]
      exact ⟨_, rfl⟩
    · simp only [edge_for_connection, hens]
      rcases hef : edge_find st.connections 0 ((un, upp), (dn, dpp)) with _ | i
      · exact ⟨_, rfl⟩
      · exact ⟨_, rfl⟩
    · simp only [sender_for_port, hens]
      exact ⟨_, rfl⟩
    · simp only [input_edge_for_port, hens]
      exact ⟨_, rfl⟩

/-- Fixture: a builder whose setup attempt failed (`setup` set,
neither in progress nor successful). -/
def exFailedState : PipelineState :=
  { initialState with setup := true }

/-- Fixture: a builder after a successful setup, with one resolved
connection. -/
def exReadyState : PipelineState :=
  { initialState with
    process_map := [("a", ⟨"a", [], [("o", ⟨"int", [], 0⟩)]⟩),
                    ("b", ⟨"b", [("i", ⟨"int", [], 0⟩)], []⟩)]
    connections := [(("a", "o"), ("b", "i"))]
    edge_map := [(0, 7)]
    setup := true
    setup_successful := true }

/-- Witness for C8: the guard outcomes on three concrete states. -/
theorem claim_C8_query_setup_guard_witness :
    sender_for_port initialState "b" "i" = .error .pipeline_not_setup ∧
    sender_for_port exFailedState "b" "i" = .error .pipeline_not_ready ∧
    (∃ v, sender_for_port exReadyState "b" "i" = .ok v) := by
  refine ⟨?_, ?_, ?_⟩
  · exact ((claim_C8_query_setup_guard initialState "b" "i" "a" "o" "b" "i").1
      rfl).2.2.1
  · exact ((claim_C8_query_setup_guard exFailedState "b" "i" "a" "o" "b" "i").2.1
      rfl rfl rfl).2.2.1
  · exact ((claim_C8_query_setup_guard exReadyState "b" "i" "a" "o" "b" "i").2.2
      rfl (Or.inr rfl)).2.2.1

/-- A pass run leaves the lifecycle flags unchanged when every pass
does. -/
theorem run_passes_flags (passes : List SetupPass)
    (hpres : ∀ p ∈ passes, ∀ s : PipelineState,
      ((p s).1.setup = s.setup ∧ (p s).1.setup_in_progress = s.setup_in_progress ∧
       (p s).1.setup_successful = s.setup_successful)) (s : PipelineState) :
    (run_passes passes s).1.setup = s.setup ∧
    (run_passes passes s).1.setup_in_progress = s.setup_in_progress ∧
    (run_passes passes s).1.setup_successful = s.setup_successful := by
  induction passes generalizing s with
  | nil => simp [run_passes]
  | cons p ps ih =>
      have hp := hpres p (by simp) s
      rcases hres : p s with ⟨s₁, e⟩
      rw [hres] at hp
      cases e with
      | none =>
          have tail := ih (fun q hq s₂ => hpres q (by simp [hq]) s₂) s₁
          simp only [run_passes, hres]
          exact ⟨tail.1.trans hp.1, (tail.2.1).trans hp.2.1, (tail.2.2).trans hp.2.2⟩
      | some err => simpa [run_passes, hres] using hp

/-- C4: when any setup pass fails inside `setup_pipeline` (the passes
themselves leaving the lifecycle flags alone, as the real passes do),
the error propagates out and on that failure path the `setup` flag
remains set, `setup_in_progress` is cleared, and `setup_successful`
is false; only when every pass completes does `setup_successful`
become true. -/
theorem claim_C4_setup_failure_flags (passes : List SetupPass) (st : PipelineState)
    (hpres : ∀ p ∈ passes, ∀ s : PipelineState,
      ((p s).1.setup = s.setup ∧ (p s).1.setup_in_progress = s.setup_in_progress ∧
       (p s).1.setup_successful = s.setup_successful))
    (hnots : st.setup = false)
    (hne : st.process_map.isEmpty = false) :
    (∀ e, (setup_pipeline passes st).2 = some e →
      (setup_pipeline passes st).1.setup = true ∧
      (setup_pipeline passes st).1.setup_in_progress = false ∧
      (setup_pipeline passes st).1.setup_successful = false) ∧
    ((setup_pipeline passes st).2 = none →
      (setup_pipeline passes st).1.setup = true ∧
      (setup_pipeline passes st).1.setup_in_progress = false ∧
      (setup_pipeline passes st).1.setup_successful = true) := by
  have hflags := run_passes_flags passes hpres
    { st with setup := true, setup_in_progress := true, setup_successful := false }
  rcases hrun : run_passes passes
      { st with setup := true, setup_in_progress := true, setup_successful := false } with
    ⟨s₂, e⟩
  rw [hrun] at hflags
  cases e with
  | none =>
      constructor
      · intro e' he'
        exfalso
        revert he'
        simp [setup_pipeline, hnots, hne, hrun]
      · intro _
        simp only [setup_pipeline, hnots, hne, Bool.false_eq_true, if_false,
          Bool.not_eq_true, hrun]
        simpa using hflags.1
  | some err =>
      constructor
      · intro e' _
        simp only [setup_pipeline, hnots, hne, Bool.false_eq_true, if_false,
          Bool.not_eq_true, hrun]
        simpa using ⟨hflags.1, hflags.2.2⟩
      · intro habs
        exfalso
        revert habs
        simp [setup_pipeline, hnots, hne, hrun]

/-- Fixture: a two-process builder used for the lifecycle witnesses. -/
def exPairState : PipelineState :=
  { initialState with
    process_map := [("a", ⟨"a", [], [("o", ⟨"int", [], 0⟩)]⟩),
                    ("b", ⟨"b", [("i", ⟨"int", [], 0⟩)], []⟩)] }

/-- Fixture: a setup pass that throws without touching the state. -/
def exFailPass : SetupPass := fun s => (s, some .not_a_dag)

/-- Witness for C4: a concrete failing pass leaves `setup` set,
`setup_in_progress` cleared and `setup_successful` false. -/
theorem claim_C4_setup_failure_flags_witness :
    (setup_pipeline [exFailPass] exPairState).1.setup = true ∧
    (setup_pipeline [exFailPass] exPairState).1.setup_in_progress = false ∧
    (setup_pipeline [exFailPass] exPairState).1.setup_successful = false := by
  exact (claim_C4_setup_failure_flags [exFailPass] exPairState
    (by intro p hp s; simp only [List.mem_singleton] at hp; simp [hp, exFailPass])
    rfl rfl).1 .not_a_dag (by rfl)

/-- With no matching resolved connection, the `sender_for_port` loop
falls through to the default-constructed address. -/
theorem sender_find_no_match (conns : List Connection) (n : Name) (p : Port)
    (h : ∀ c ∈ conns, ¬(c.2.1 = n ∧ c.2.2 = p)) :
    sender_find conns n p = ("", "") := by
  induction conns with
  | nil => rfl
  | cons c rest ih =>
      have hc := h c (by simp)
      simp only [sender_find, if_neg hc]
      exact ih (fun c₁ hc₁ => h c₁ (by simp [hc₁]))

/-- With no matching resolved connection, the `upstream_for_port`
loop falls through to the null process handle. -/
theorem upstream_find_no_match (conns : List Connection)
    (pm : List (Name × ProcessDef)) (n : Name) (p : Port)
    (h : ∀ c ∈ conns, ¬(c.2.1 = n ∧ c.2.2 = p)) :
    upstream_find conns pm n p = none := by
  induction conns with
  | nil => rfl
  | cons c rest ih =>
      have hc := h c (by simp)
      simp only [upstream_find, if_neg hc]
      exact ih (fun c₁ hc₁ => h c₁ (by simp [hc₁]))

/-- With no resolved connection equal to the queried tuple, the
`edge_for_connection` loop finds no index. -/
theorem edge_find_no_match (conns : List Connection) (i : Nat) (target : Connection)
    (h : ∀ c ∈ conns, c ≠ target) :
    edge_find conns i target = none := by
  induction conns generalizing i with
  | nil => rfl
  | cons c rest ih =>
      have hc := h c (by simp)
      simp only [edge_find, if_neg hc]
      exact ih (i + 1) (fun c₁ hc₁ => h c₁ (by simp [hc₁]))

/-- C10: after a successful setup, per-port lookups return empty
defaults instead of raising: with no resolved connection into
`(name, port)`, `sender_for_port` returns the empty port address and
`upstream_for_port` the null process handle; with no resolved
connection equal to the queried four-address tuple,
`edge_for_connection` returns the null edge handle. -/
theorem claim_C10_query_null_defaults (st : PipelineState)
    (hs : st.setup = true) (hsucc : st.setup_successful = true)
    (n : Name) (p : Port) (un : Name) (upp : Port) (dn : Name) (dpp : Port) :
    ((∀ c ∈ st.connections, ¬(c.2.1 = n ∧ c.2.2 = p)) →
      sender_for_port st n p = .ok ("", "") ∧
      upstream_for_port st n p = .ok none) ∧
    ((∀ c ∈ st.connections, c ≠ ((un, upp), (dn, dpp))) →
      edge_for_connection st un upp dn dpp = .ok none) := by
  have hens : ensure_setup st = none :=
    (ensure_setup_spec st).2.2 hs (Or.inr hsucc)
  constructor
  · intro h
    constructor
    · simp only [sender_for_port, hens]
      rw [sender_find_no_match st.connections n p h]
    · simp only [upstream_for_port, hens]
      rw [upstream_find_no_match st.connections st.process_map n p h]
  · intro h
    simp only [edge_for_connection, hens]
    rw [edge_find_no_match st.connections 0 _ h]

/-- Witness for C10: on the ready fixture, queries for an unconnected
port and an absent tuple return the empty defaults. -/
theorem claim_C10_query_null_defaults_witness :
    (sender_for_port exReadyState "b" "other" = .ok ("", "") ∧
     upstream_for_port exReadyState "b" "other" = .ok none) ∧
    edge_for_connection exReadyState "a" "o" "b" "other" = .ok none := by
  refine ⟨(claim_C10_query_null_defaults exReadyState rfl rfl "b" "other"
    "a" "o" "b" "other").1 ?_,
    (claim_C10_query_null_defaults exReadyState rfl rfl "b" "other"
    "a" "o" "b" "other").2 ?_⟩
  · intro c hc
    simp only [exReadyState, List.mem_singleton] at hc
    subst hc
    decide
  · intro c hc
    simp only [exReadyState, List.mem_singleton] at hc
    subst hc
    decide

/-- Erasing a key removes it from lookup. -/
theorem mapFind_mapErase_self {α : Type} (m : List (Name × α)) (k : Name) :
    mapFind (mapErase m k) k = none := by
  induction m with
  | nil => rfl
  | cons e rest ih =>
      rcases e with ⟨k₁, v₁⟩
      by_cases h : k = k₁
      · subst h
        simp [mapErase, ih]
      · simp [mapErase, mapFind, h, Ne.symm h, ih]

/-- A key assignment is seen by lookup. -/
theorem mapFind_mapSet_self {α : Type} (m : List (Name × α)) (k : Name) (v : α) :
    mapFind (mapSet m k v) k = some v := by
  induction m with
  | nil => simp [mapSet, mapFind]
  | cons e rest ih =>
      rcases e with ⟨k₁, v₁⟩
      by_cases h : k = k₁
      · simp [mapSet, h, mapFind]
      · by_cases hlt : strLt k k₁ <;> simp [mapSet, h, hlt, mapFind, ih]

/-- Assigning one key leaves other keys' lookups unchanged. -/
theorem mapFind_mapSet_ne {α : Type} (m : List (Name × α)) (k k' : Name) (v : α)
    (h : k' ≠ k) : mapFind (mapSet m k v) k' = mapFind m k' := by
  induction m with
  | nil => simp [mapSet, mapFind, h]
  | cons e rest ih =>
      rcases e with ⟨k₁, v₁⟩
      by_cases h₁ : k = k₁
      · subst h₁
        simp [mapSet, mapFind, h]
      · by_cases hlt : strLt k k₁ <;>
          simp [mapSet, h₁, hlt, mapFind, h, ih]

/-- A key absent from lookup is absent from the key list. -/
theorem mapFind_none_not_mem {α : Type} (m : List (Name × α)) (k : Name)
    (h : mapFind m k = none) : k ∉ m.map (fun e => e.1) := by
  induction m with
  | nil => simp
  | cons e rest ih =>
      rcases e with ⟨k₁, v₁⟩
      by_cases h₁ : k = k₁
      · simp [mapFind, h₁] at h
      · simp only [mapFind, if_neg h₁] at h
        simp [h₁, ih h]

/-- A key absent from lookup stays absent after erasing any key. -/
theorem mapFind_mapErase_of_none {α : Type} (m : List (Name × α)) (k e : Name)
    (h : mapFind m k = none) : mapFind (mapErase m e) k = none := by
  induction m with
  | nil => rfl
  | cons p rest ih =>
      rcases p with ⟨k₁, v₁⟩
      by_cases h₁ : k = k₁
      · simp [mapFind, h₁] at h
      · simp only [mapFind, if_neg h₁] at h
        by_cases h₂ : e = k₁
        · subst h₂
          simpa [mapErase] using ih h
        · simp [mapErase, h₂, mapFind, h₁, ih h]

/-- All five connection lists hold no connection referencing `name`
(the post-state of `remove_from_pipeline name`). -/
def ConnectionsPurged (name : Name) (st : PipelineState) : Prop :=
  (∀ c ∈ st.planned_connections, is_connection_with name c = false) ∧
  (∀ c ∈ st.connections, is_connection_with name c = false) ∧
  (∀ c ∈ st.data_dep_connections, is_connection_with name c = false) ∧
  (∀ c ∈ st.untyped_connections, is_connection_with name c = false) ∧
  (∀ cc ∈ st.cluster_connections, is_cluster_connection_with name cc = false)

/-- Removal operations only shrink the builder: no registry key
reappears and no connection is added to any of the five lists. -/
def RemovalShrink (st st₁ : PipelineState) : Prop :=
  (∀ k, mapFind st.cluster_map k = none → mapFind st₁.cluster_map k = none) ∧
  (∀ k, mapFind st.process_map k = none → mapFind st₁.process_map k = none) ∧
  (∀ c ∈ st₁.planned_connections, c ∈ st.planned_connections) ∧
  (∀ c ∈ st₁.connections, c ∈ st.connections) ∧
  (∀ c ∈ st₁.data_dep_connections, c ∈ st.data_dep_connections) ∧
  (∀ c ∈ st₁.untyped_connections, c ∈ st.untyped_connections) ∧
  (∀ cc ∈ st₁.cluster_connections, cc ∈ st.cluster_connections)

theorem removalShrink_refl (st : PipelineState) : RemovalShrink st st :=
  ⟨fun _ h => h, fun _ h => h, fun _ h => h, fun _ h => h, fun _ h => h,
   fun _ h => h, fun _ h => h⟩

theorem removalShrink_trans {st₁ st₂ st₃ : PipelineState}
    (h₁ : RemovalShrink st₁ st₂) (h₂ : RemovalShrink st₂ st₃) :
    RemovalShrink st₁ st₃ :=
  ⟨fun k h => h₂.1 k (h₁.1 k h),
   fun k h => h₂.2.1 k (h₁.2.1 k h),
   fun c h => h₁.2.2.1 c (h₂.2.2.1 c h),
   fun c h => h₁.2.2.2.1 c (h₂.2.2.2.1 c h),
   fun c h => h₁.2.2.2.2.1 c (h₂.2.2.2.2.1 c h),
   fun c h => h₁.2.2.2.2.2.1 c (h₂.2.2.2.2.2.1 c h),
   fun cc h => h₁.2.2.2.2.2.2 cc (h₂.2.2.2.2.2.2 cc h)⟩

/-- Once purged, a name's connections stay purged through any
further shrinking step. -/
theorem connectionsPurged_shrink {name : Name} {st st₁ : PipelineState}
    (hp : ConnectionsPurged name st) (hs : RemovalShrink st st₁) :
    ConnectionsPurged name st₁ :=
  ⟨fun c hc => hp.1 c (hs.2.2.1 c hc),
   fun c hc => hp.2.1 c (hs.2.2.2.1 c hc),
   fun c hc => hp.2.2.1 c (hs.2.2.2.2.1 c hc),
   fun c hc => hp.2.2.2.1 c (hs.2.2.2.2.2.1 c hc),
   fun cc hcc => hp.2.2.2.2 cc (hs.2.2.2.2.2.2 cc hcc)⟩

/-- `remove_from_pipeline` purges the name it is given. -/
theorem remove_from_pipeline_purges (st : PipelineState) (name : Name) :
    ConnectionsPurged name (remove_from_pipeline st name) := by
  refine ⟨?_, ?_, ?_, ?_, ?_⟩ <;>
    · intro c hc
      simp only [remove_from_pipeline, List.mem_filter] at hc
      simpa using hc.2

/-- A successful `remove_process` on a name absent from the cluster
registry takes the plain branch: erase from the process map, then
purge via `remove_from_pipeline`. -/
theorem remove_process_plain_eq (fuel : Nat) (st st₁ : PipelineState) (name : Name)
    (h : remove_process fuel st name = some (.ok st₁))
    (hcl : mapFind st.cluster_map name = none) :
    st₁ = remove_from_pipeline
      { st with process_map := mapErase st.process_map name } name := by
  cases fuel with
  | zero => simp [remove_process] at h
  | succ n =>
      by_cases hsetup : st.setup
      · simp [remove_process, hsetup] at h
      · rcases hpm : mapFind st.process_map name with _ | pd
        · simp [remove_process, hsetup, hcl, hpm] at h
        · simp only [remove_process, hsetup, Bool.false_eq_true, if_false,
            hcl, hpm, Option.some.injEq, Except.ok.injEq] at h
          have hf : st.setup = false := by simpa using hsetup
          rw [hf]
          exact h.symm

/-- A successful `remove_process` on a registered cluster removes the
children and then erases the cluster from the cluster registry. -/
theorem remove_process_cluster_eq (fuel : Nat) (st st₁ : PipelineState) (name : Name)
    (cl : ProcObj) (h : remove_process (fuel + 1) st name = some (.ok st₁))
    (hcl : mapFind st.cluster_map name = some cl) :
    ∃ st₂, remove_children fuel st (ProcObj.childNames cl) = some (.ok st₂) ∧
      st₁ = { st₂ with cluster_map := mapErase st₂.cluster_map name } := by
  by_cases hsetup : st.setup
  · simp [remove_process, hsetup] at h
  · rcases hch : remove_children fuel st (ProcObj.childNames cl) with _ | res
    · simp [remove_process, hsetup, hcl, hch] at h
    · cases res with
      | error e => simp [remove_process, hsetup, hcl, hch] at h
      | ok st₂ =>
          simp only [remove_process, hsetup, Bool.false_eq_true, if_false,
            hcl, hch, Option.some.injEq, Except.ok.injEq] at h
          exact ⟨st₂, rfl, h.symm⟩

/-- Every successful removal — of one name or of a child list — only
shrinks the builder state. -/
theorem remove_shrink (fuel : Nat) :
    (∀ st name st₁, remove_process fuel st name = some (.ok st₁) →
      RemovalShrink st st₁) ∧
    (∀ st ns st₁, remove_children fuel st ns = some (.ok st₁) →
      RemovalShrink st st₁) := by
  induction fuel with
  | zero =>
      constructor
      · intro st name st₁ h
        simp [remove_process] at h
      · intro st ns st₁ h
        cases ns with
        | nil =>
            simp only [remove_children, Option.some.injEq, Except.ok.injEq] at h
            subst h
            exact removalShrink_refl _
        | cons m rest => simp [remove_children, remove_process] at h
  | succ n ih =>
      have hrp : ∀ st name st₁, remove_process (n + 1) st name = some (.ok st₁) →
          RemovalShrink st st₁ := by
        intro st name st₁ h
        rcases hcl : mapFind st.cluster_map name with _ | cl
        · have he := remove_process_plain_eq (n + 1) st st₁ name h hcl
          subst he
          refine ⟨?_, ?_, ?_, ?_, ?_, ?_, ?_⟩
          · intro k hk
            exact hk
          · intro k hk
            exact mapFind_mapErase_of_none st.process_map k name hk
          all_goals
            intro c hc
            simp only [remove_from_pipeline, List.mem_filter] at hc
            exact hc.1
        · obtain ⟨st₂, hch, he⟩ := remove_process_cluster_eq n st st₁ name cl h hcl
          subst he
          have hs₂ := ih.2 st (ProcObj.childNames cl) st₂ hch
          refine ⟨?_, hs₂.2.1, hs₂.2.2.1, hs₂.2.2.2.1, hs₂.2.2.2.2.1,
            hs₂.2.2.2.2.2.1, hs₂.2.2.2.2.2.2⟩
          intro k hk
          exact mapFind_mapErase_of_none st₂.cluster_map k name (hs₂.1 k hk)
      constructor
      · exact hrp
      · intro st ns
        induction ns generalizing st with
        | nil =>
            intro st₁ h
            simp only [remove_children, Option.some.injEq, Except.ok.injEq] at h
            subst h
            exact removalShrink_refl _
        | cons m rest ihns =>
            intro st₁ h
            rcases hm : remove_process (n + 1) st m with _ | res
            · simp [remove_children, hm] at h
            · cases res with
              | error e => simp [remove_children, hm] at h
              | ok st₂ =>
                  have hrest : remove_children (n + 1) st₂ rest = some (.ok st₁) := by
                    simpa [remove_children, hm] using h
                  exact removalShrink_trans (hrp st m st₂ hm) (ihns st₂ st₁ hrest)

/-- The cascade of a cluster removal: every removed child that is not
itself registered as a cluster ends up erased from the process
registry with all of its referencing connections purged. -/
theorem remove_children_purges (fuel : Nat) (ns : List Name) :
    ∀ st st₁, remove_children fuel st ns = some (.ok st₁) →
      ∀ m ∈ ns, mapFind st.cluster_map m = none →
        mapFind st₁.process_map m = none ∧ ConnectionsPurged m st₁ := by
  induction ns with
  | nil =>
      intro st st₁ h m hm
      exact absurd hm (List.not_mem_nil m)
  | cons hd rest ih =>
      intro st st₁ h m hm hmcl
      rcases hhd : remove_process fuel st hd with _ | res
      · simp [remove_children, hhd] at h
      · cases res with
        | error e => simp [remove_children, hhd] at h
        | ok st₂ =>
            have hrest : remove_children fuel st₂ rest = some (.ok st₁) := by
              simpa [remove_children, hhd] using h
            rcases List.mem_cons.mp hm with hm₁ | hm₂
            · subst hm₁
              have he := remove_process_plain_eq fuel st st₂ m hhd hmcl
              subst he
              have hs := (remove_shrink fuel).2 _ rest st₁ hrest
              constructor
              · apply hs.2.1 m
                show mapFind (mapErase st.process_map m) m = none
                exact mapFind_mapErase_self st.process_map m
              · exact connectionsPurged_shrink (remove_from_pipeline_purges _ m) hs
            · have hs₂ := (remove_shrink fuel).1 st hd st₂ hhd
              exact ih st₂ st₁ hrest m hm₂ (hs₂.1 m hmcl)

/-- Fixture: the plain process `a` feeding the example cluster. -/
def exAProc : ProcessDef where
  pname := "a"
  input_infos := []
  output_infos := [("o", ⟨"int", [], 0⟩)]

/-- Fixture: the child process living inside the example cluster. -/
def exChildProc : ProcessDef where
  pname := "p"
  input_infos := [("i", ⟨"int", [], 0⟩)]
  output_infos := []

/-- Fixture: a cluster named `c` with one child and one input
mapping `c.x → p.i`. -/
def exClusterObj : ProcObj :=
  .cluster ⟨"c", [], [(("c", "x"), ("p", "i"))], []⟩ [.plain exChildProc]

/-- Fixture: a builder where `a.o → c.x` was connected against the
cluster, so the connection sits in *planned* and *cluster-pending*. -/
def exClusterState : PipelineState :=
  { initialState with
    process_map := [("a", exAProc), ("p", exChildProc)]
    cluster_map := [("c", exClusterObj)]
    planned_connections := [(("a", "o"), ("c", "x"))]
    cluster_connections := [((("a", "o"), ("c", "x")), .cluster_downstream)] }

/-- Decidable equality for `Except` results, for concrete evaluation. -/
instance {e a : Type} [DecidableEq e] [DecidableEq a] : DecidableEq (Except e a)
  | .ok u, .ok v =>
      if h : u = v then isTrue (by rw [h]) else isFalse (fun hc => h (Except.ok.inj hc))
  | .ok _, .error _ => isFalse Except.noConfusion
  | .error _, .ok _ => isFalse Except.noConfusion
  | .error u, .error v =>
      if h : u = v then isTrue (by rw [h]) else isFalse (fun hc => h (Except.error.inj hc))

/-- Counterexample for C6: removing the cluster `c` succeeds but
leaves the planned and cluster-pending connections that reference `c`
in place, contradicting the claim that every connection referencing
the removed name is purged. -/
theorem claim_C6_cluster_purge_counterexample :
    (remove_process 3 exClusterState "c").map
        (Except.map (fun st₁ => st₁.planned_connections)) =
      some (.ok [(("a", "o"), ("c", "x"))]) ∧
    (remove_process 3 exClusterState "c").map
        (Except.map (fun st₁ => st₁.cluster_connections)) =
      some (.ok [((("a", "o"), ("c", "x")), .cluster_downstream)]) := by
  have h : remove_process 3 exClusterState "c" =
      some (.ok { initialState with
        process_map := [("a", exAProc)]
        planned_connections := [(("a", "o"), ("c", "x"))]
        cluster_connections := [((("a", "o"), ("c", "x")), .cluster_downstream)] }) := by
    simp [remove_process, remove_children, exClusterState, exClusterObj, exChildProc,
      exAProc, initialState, remove_from_pipeline, mapErase, mapFind,
      ProcObj.childNames, ProcObj.objName, is_connection_with, is_addr_on,
      is_cluster_connection_with]
  rw [h]
  exact ⟨rfl, rfl⟩

/-- C6 (amended): a successful `remove_process` on a registered plain
process erases it from the process registry and purges every
connection referencing it from the planned, resolved, data-dependent,
flow-untyped and cluster-pending lists; for a cluster the removal
erases the cluster from the cluster registry and cascades to the
children — every child not itself registered as a cluster is erased
from the process registry with all of its referencing connections
purged — but connections referencing the cluster's own name are not
purged. -/
theorem claim_C6_remove_purges_connections (fuel : Nat) (st st₁ : PipelineState)
    (name : Name) (h : remove_process fuel st name = some (.ok st₁)) :
    (mapFind st.cluster_map name = none →
      mapFind st₁.process_map name = none ∧ ConnectionsPurged name st₁) ∧
    (∀ cl, mapFind st.cluster_map name = some cl →
      mapFind st₁.cluster_map name = none ∧
      ∀ m ∈ ProcObj.childNames cl, mapFind st.cluster_map m = none →
        mapFind st₁.process_map m = none ∧ ConnectionsPurged m st₁) := by
  constructor
  · intro hcl
    have he := remove_process_plain_eq fuel st st₁ name h hcl
    subst he
    constructor
    · show mapFind (mapErase st.process_map name) name = none
      exact mapFind_mapErase_self st.process_map name
    · exact remove_from_pipeline_purges _ name
  · intro cl hcl
    rcases fuel with _ | n
    · simp [remove_process] at h
    · obtain ⟨st₂, hch, he⟩ := remove_process_cluster_eq n st st₁ name cl h hcl
      subst he
      constructor
      · exact mapFind_mapErase_self st₂.cluster_map name
      · intro m hm hmcl
        have hp := remove_children_purges n (ProcObj.childNames cl) st st₂ hch m hm hmcl
        refine ⟨hp.1, ?_⟩
        exact connectionsPurged_shrink hp.2
          ⟨fun k hk => mapFind_mapErase_of_none st₂.cluster_map k name hk,
           fun k hk => hk, fun c hc => hc, fun c hc => hc, fun c hc => hc,
           fun c hc => hc, fun cc hcc => hcc⟩

/-- Fixture: a builder holding `a` and `q` with a planned and a
resolved connection between them. -/
def exRemState : PipelineState :=
  { initialState with
    process_map := [("a", exAProc), ("q", ⟨"q", [], [("o", ⟨"int", [], 0⟩)]⟩)]
    planned_connections := [(("q", "o"), ("a", "i"))]
    connections := [(("q", "o"), ("a", "i"))] }

/-- Fixture: the builder state after removing `q`. -/
def exRemResult : PipelineState :=
  { initialState with process_map := [("a", exAProc)] }

/-- Fixture: the builder state after removing the cluster `c` from
`exClusterState`. -/
def exClusterResult : PipelineState :=
  { initialState with
    process_map := [("a", exAProc)]
    planned_connections := [(("a", "o"), ("c", "x"))]
    cluster_connections := [((("a", "o"), ("c", "x")), .cluster_downstream)] }

/-- Witness for C6 (amended): removing the plain process `q` erases it
from the process registry and purges the planned connection that
referenced it; removing the cluster `c` erases it from the cluster
registry and cascades to erase its child `p` from the process
registry. -/
theorem claim_C6_remove_purges_connections_witness :
    (mapFind exRemResult.process_map "q" = none ∧
     exRemResult.planned_connections.all
       (fun c => ! is_connection_with "q" c) = true) ∧
    (mapFind exClusterResult.cluster_map "c" = none ∧
     mapFind exClusterResult.process_map "p" = none) := by
  have h₁ : remove_process 1 exRemState "q" = some (.ok exRemResult) := by
    simp [remove_process, exRemState, exRemResult, initialState, remove_from_pipeline,
      mapErase, mapFind, exAProc, is_connection_with, is_addr_on,
      is_cluster_connection_with]
  have h₂ : remove_process 3 exClusterState "c" = some (.ok exClusterResult) := by
    simp [remove_process, remove_children, exClusterState, exClusterResult,
      exClusterObj, exChildProc, exAProc, initialState, remove_from_pipeline,
      mapErase, mapFind, ProcObj.childNames, ProcObj.objName, is_connection_with,
      is_addr_on, is_cluster_connection_with]
  refine ⟨?_, ?_⟩
  · have H := (claim_C6_remove_purges_connections 1 exRemState exRemResult "q" h₁).1 rfl
    refine ⟨H.1, ?_⟩
    rw [List.all_eq_true]
    intro c hc
    have hp := H.2.1 c hc
    simp [hp]
  · have H := (claim_C6_remove_purges_connections 3 exClusterState exClusterResult
      "c" h₂).2 exClusterObj rfl
    refine ⟨H.1, ?_⟩
    exact (H.2 "p" (by simp [exClusterObj, ProcObj.childNames, ProcObj.objName,
      exChildProc]) rfl).1

/-- The registry-preservation property threaded through `add_process`:
existing cluster registrations survive, and a key absent from the
process map with a live cluster registration stays absent. -/
def RegistryPreserved (st st₁ : PipelineState) : Prop :=
  ∀ k v, mapFind st.cluster_map k = some v →
    mapFind st₁.cluster_map k = some v ∧
    (mapFind st.process_map k = none → mapFind st₁.process_map k = none)

theorem registryPreserved_refl (st : PipelineState) : RegistryPreserved st st :=
  fun _ _ h => ⟨h, fun hn => hn⟩

theorem registryPreserved_trans {st₁ st₂ st₃ : PipelineState}
    (h₁ : RegistryPreserved st₁ st₂) (h₂ : RegistryPreserved st₂ st₃) :
    RegistryPreserved st₁ st₃ := by
  intro k v hv
  obtain ⟨hv₂, hp₂⟩ := h₁ k v hv
  obtain ⟨hv₃, hp₃⟩ := h₂ k v hv₂
  exact ⟨hv₃, fun hn => hp₃ (hp₂ hn)⟩

/-- `check_connection_types` only touches the pending-connection
lists: the registries are unchanged. -/
theorem check_connection_types_maps (st : PipelineState) (c : Connection)
    (ut dt : String) :
    (check_connection_types st c ut dt).1.process_map = st.process_map ∧
    (check_connection_types st c ut dt).1.cluster_map = st.cluster_map := by
  by_cases h₁ : ut = type_data_dependent <;>
    by_cases h₂ : strStartsWith ut type_flow_dependent = true <;>
    by_cases h₃ : strStartsWith dt type_flow_dependent = true <;>
    by_cases h₄ : ut ≠ type_any ∧ dt ≠ type_any ∧ ut ≠ dt <;>
    simp [check_connection_types, h₁, h₂, h₃, h₄]

/-- The paired form of `check_connection_types_maps`. -/
theorem check_connection_types_pair (st st₂ : PipelineState) (c : Connection)
    (ut dt : String) (s : PortTypeStatus)
    (heq : check_connection_types st c ut dt = (st₂, s)) :
    st₂.process_map = st.process_map ∧ st₂.cluster_map = st.cluster_map := by
  obtain ⟨hm₁, hm₂⟩ := check_connection_types_maps st c ut dt
  rw [heq] at hm₁ hm₂
  exact ⟨hm₁, hm₂⟩

/-- `connect` only touches the connection book: the registries are
unchanged. -/
theorem connect_maps (st : PipelineState) (a b c d : Name) (st₁ : PipelineState)
    (h : connect st a b c d = .ok st₁) :
    st₁.process_map = st.process_map ∧ st₁.cluster_map = st.cluster_map := by
  simp only [connect] at h
  repeat' split at h
  all_goals try exact Except.noConfusion h
  all_goals rw [Except.ok.injEq] at h
  all_goals subst h
  all_goals try (constructor <;> rfl)
  all_goals
    rename_i heq
  all_goals
    obtain ⟨hm₁, hm₂⟩ := check_connection_types_pair _ _ _ _ _ _ heq
  all_goals exact ⟨hm₁.trans rfl, hm₂.trans rfl⟩

/-- `connect_list` preserves the registries. -/
theorem connect_list_maps (cs : List Connection) (st st₁ : PipelineState)
    (h : connect_list st cs = .ok st₁) :
    st₁.process_map = st.process_map ∧ st₁.cluster_map = st.cluster_map := by
  induction cs generalizing st with
  | nil =>
      simp only [connect_list, Except.ok.injEq] at h
      subst h
      exact ⟨rfl, rfl⟩
  | cons c rest ih =>
      simp only [connect_list] at h
      rcases hc : connect st c.1.1 c.1.2 c.2.1 c.2.2 with _ | st₂
      all_goals rw [hc] at h
      · exact Except.noConfusion h
      · obtain ⟨h₁, h₂⟩ := connect_maps st c.1.1 c.1.2 c.2.1 c.2.2 st₂ hc
        obtain ⟨h₃, h₄⟩ := ih st₂ h
        exact ⟨h₃.trans h₁, h₄.trans h₂⟩

/-- A `check_duplicate_name` pass means the name is in neither
registry. -/
theorem check_duplicate_name_none (st : PipelineState) (name : Name)
    (h : check_duplicate_name st name = none) :
    mapFind st.process_map name = none ∧ mapFind st.cluster_map name = none := by
  by_cases hc : ((mapFind st.process_map name).isSome ||
      (mapFind st.cluster_map name).isSome) = true
  · simp [check_duplicate_name, hc] at h
  · constructor
    · rcases hp : mapFind st.process_map name with _ | v
      · rfl
      · exact absurd (by simp [hp]) hc
    · rcases hq : mapFind st.cluster_map name with _ | v
      · rfl
      · exact absurd (by simp [hq]) hc

/-- `add_children` preserves the registries when `add_process` at the
same fuel does. -/
theorem add_children_preserve_of (n : Nat)
    (hap : ∀ st p st₁, add_process n st p = some (.ok st₁) → RegistryPreserved st st₁) :
    ∀ cs st st₁, add_children n st cs = some (.ok st₁) → RegistryPreserved st st₁ := by
  intro cs
  induction cs with
  | nil =>
      intro st st₁ h
      simp only [add_children, Option.some.injEq, Except.ok.injEq] at h
      subst h
      exact registryPreserved_refl st
  | cons c rest ih =>
      intro st st₁ h
      simp only [add_children] at h
      rcases hc : add_process n st (some c) with _ | res
      all_goals rw [hc] at h
      · exact Option.noConfusion h
      · cases res with
        | error e => exact Except.noConfusion (Option.some.inj h)
        | ok st₂ => exact registryPreserved_trans (hap st (some c) st₂ hc) (ih st₂ st₁ h)

/-- A successful `add_process` preserves existing cluster
registrations and keeps names with a live cluster registration out of
the process map. -/
theorem add_process_preserve :
    ∀ n st p st₁, add_process n st p = some (.ok st₁) → RegistryPreserved st st₁ := by
  intro n
  induction n with
  | zero =>
      intro st p st₁ h
      simp [add_process] at h
  | succ m ih =>
      intro st p st₁ h
      cases p with
      | none => simp [add_process] at h
      | some p =>
          cases p with
          | plain pd =>
              simp only [add_process] at h
              split at h
              · exact Except.noConfusion (Option.some.inj h)
              · split at h
                · exact Except.noConfusion (Option.some.inj h)
                · rename_i heq
                  obtain ⟨hpn, hcn⟩ := check_duplicate_name_none st _ heq
                  rw [Option.some.injEq, Except.ok.injEq] at h
                  subst h
                  intro k v hv
                  refine ⟨hv, fun hn => ?_⟩
                  have hk : k ≠ (ProcObj.plain pd).objName := by
                    intro hk
                    rw [hk, hcn] at hv
                    exact Option.noConfusion hv
                  show mapFind (mapSet st.process_map (ProcObj.plain pd).objName pd) k
                      = none
                  rw [mapFind_mapSet_ne _ _ _ _ hk]
                  exact hn
          | cluster cd children =>
              simp only [add_process] at h
              split at h
              · exact Except.noConfusion (Option.some.inj h)
              · split at h
                · exact Except.noConfusion (Option.some.inj h)
                · rename_i heq
                  obtain ⟨hpn, hcn⟩ := check_duplicate_name_none st _ heq
                  split at h
                  · exact Option.noConfusion h
                  · exact Except.noConfusion (Option.some.inj h)
                  · rename_i st₃ hch
                    split at h
                    · exact Except.noConfusion (Option.some.inj h)
                    · rename_i st₄ hcl
                      rw [Option.some.injEq, Except.ok.injEq] at h
                      subst h
                      have pres₁ : RegistryPreserved st
                          { st with
                            cluster_map := mapSet st.cluster_map
                              (ProcObj.cluster cd children).objName
                              (ProcObj.cluster cd children)
                            process_parent_map := mapSet st.process_parent_map
                              (ProcObj.cluster cd children).objName
                              ((st.parent_stack.head?).getD "")
                            parent_stack :=
                              (ProcObj.cluster cd children).objName ::
                                st.parent_stack } := by
                        intro k v hv
                        have hk : k ≠ (ProcObj.cluster cd children).objName := by
                          intro hk
                          rw [hk, hcn] at hv
                          exact Option.noConfusion hv
                        constructor
                        · show mapFind (mapSet st.cluster_map
                            (ProcObj.cluster cd children).objName
                            (ProcObj.cluster cd children)) k = some v
                          rw [mapFind_mapSet_ne _ _ _ _ hk]
                          exact hv
                        · exact fun hn => hn
                      have pres₂ := add_children_preserve_of m ih children _ st₃ hch
                      have pres₃ : RegistryPreserved st₃ st₄ := by
                        obtain ⟨hm₁, hm₂⟩ :=
                          connect_list_maps cd.internal_conns st₃ st₄ hcl
                        intro k v hv
                        rw [hm₂]
                        exact ⟨hv, fun hn => by rw [hm₁]; exact hn⟩
                      have pres₄ : RegistryPreserved st₄
                          { st₄ with parent_stack := st₄.parent_stack.tail } :=
                        fun k v hv => ⟨hv, fun hn => hn⟩
                      exact registryPreserved_trans pres₁
                        (registryPreserved_trans pres₂
                          (registryPreserved_trans pres₃ pres₄))

/-- C9: adding a cluster registers its name only in the cluster map:
after a successful `add_process` of a cluster, `cluster_by_name`
returns it, `process_by_name` on the cluster name throws
`NoSuchProcess`, and `process_names` omits the name. -/
theorem claim_C9_cluster_only_in_cluster_map (fuel : Nat) (st st₁ : PipelineState)
    (cd : ClusterData) (children : List ProcObj)
    (h : add_process fuel st (some (.cluster cd children)) = some (.ok st₁)) :
    cluster_by_name st₁ cd.cname = .ok (.cluster cd children) ∧
    process_by_name st₁ cd.cname = .error (.no_such_process cd.cname) ∧
    cd.cname ∉ process_names st₁ := by
  cases fuel with
  | zero => simp [add_process] at h
  | succ m =>
      simp only [add_process] at h
      split at h
      · exact Except.noConfusion (Option.some.inj h)
      · split at h
        · exact Except.noConfusion (Option.some.inj h)
        · rename_i heq
          obtain ⟨hpn, hcn⟩ := check_duplicate_name_none st _ heq
          split at h
          · exact Option.noConfusion h
          · exact Except.noConfusion (Option.some.inj h)
          · rename_i st₃ hch
            split at h
            · exact Except.noConfusion (Option.some.inj h)
            · rename_i st₄ hcl
              rw [Option.some.injEq, Except.ok.injEq] at h
              subst h
              have hstart : mapFind
                  (mapSet st.cluster_map (ProcObj.cluster cd children).objName
                    (ProcObj.cluster cd children))
                  (ProcObj.cluster cd children).objName =
                  some (ProcObj.cluster cd children) :=
                mapFind_mapSet_self _ _ _
              have pres₂ := add_children_preserve_of m (add_process_preserve m) children
                _ st₃ hch
              obtain ⟨hcm₃, hpm₃⟩ := pres₂ (ProcObj.cluster cd children).objName
                (ProcObj.cluster cd children) hstart
              have hpm₄ := hpm₃ hpn
              obtain ⟨hm₁, hm₂⟩ := connect_list_maps cd.internal_conns st₃ st₄ hcl
              have hcm₄ : mapFind st₄.cluster_map
                  (ProcObj.cluster cd children).objName =
                  some (ProcObj.cluster cd children) := by
                rw [hm₂]
                exact hcm₃
              have hpm₅ : mapFind st₄.process_map
                  (ProcObj.cluster cd children).objName = none := by
                rw [hm₁]
                exact hpm₄
              refine ⟨?_, ?_, ?_⟩
              · show cluster_by_name
                  { st₄ with parent_stack := st₄.parent_stack.tail } cd.cname = _
                simp only [cluster_by_name]
                rw [show ({ st₄ with parent_stack := st₄.parent_stack.tail } :
                    PipelineState).cluster_map = st₄.cluster_map from rfl]
                rw [show (cd.cname : Name) =
                    (ProcObj.cluster cd children).objName from rfl]
                rw [hcm₄]
              · simp only [process_by_name]
                rw [show ({ st₄ with parent_stack := st₄.parent_stack.tail } :
                    PipelineState).process_map = st₄.process_map from rfl]
                rw [show (cd.cname : Name) =
                    (ProcObj.cluster cd children).objName from rfl]
                rw [hpm₅]
              · simp only [process_names]
                exact mapFind_none_not_mem _ _ hpm₅

/-- Fixture: a cluster object with one plain child and no internal
connections. -/
def exNewCluster : ProcObj := .cluster ⟨"c", [], [], []⟩ [.plain ⟨"k", [], []⟩]

/-- Fixture: the builder state after adding the example cluster. -/
def exAddResult : PipelineState :=
  { initialState with
    process_map := [("k", ⟨"k", [], []⟩)]
    cluster_map := [("c", exNewCluster)]
    process_parent_map := [("c", ""), ("k", "c")] }

/-- Witness for C9: the concrete cluster add registers `c` only in
the cluster map. -/
theorem claim_C9_cluster_only_in_cluster_map_witness :
    cluster_by_name exAddResult "c" = .ok exNewCluster ∧
    process_by_name exAddResult "c" = .error (.no_such_process "c") ∧
    "c" ∉ process_names exAddResult := by
  have h : add_process 2 initialState (some exNewCluster) = some (.ok exAddResult) := by
    simp [add_process, add_children, connect_list, check_duplicate_name,
      exNewCluster, exAddResult, initialState, mapFind, mapSet, ProcObj.objName,
      strLt, charListLt]
  exact claim_C9_cluster_only_in_cluster_map 2 initialState exAddResult
    ⟨"c", [], [], []⟩ [.plain ⟨"k", [], []⟩] h

/-- C3: cluster-pending flattening. For an upstream-cluster entry,
zero output mappings matching the external address fail with
`NoSuchPort`, more than one fail with the internal logic fault, and
exactly one is replaced by a single `connect` from the mapped
internal port to the real downstream. For a downstream-cluster
entry, zero matching input mappings fail with `NoSuchPort` and every
matching mapping is expanded into its own `connect` (fan-out on the
input side only). The pass recurses until the cluster-pending list is
empty: a successful run ends with the list empty. -/
theorem claim_C3_cluster_flattening (st : PipelineState) (cc : ClusterConnection)
    (cluster : ProcObj) :
    (cc.2 = .cluster_upstream → mapFind st.cluster_map cc.1.1.1 = some cluster →
      (cluster.outputMappings.filter (fun m => m.2 = cc.1.1) = [] →
        map_cluster_one st cc = .error (.no_such_port cc.1.1.1 cc.1.1.2)) ∧
      (∀ m, cluster.outputMappings.filter (fun m => m.2 = cc.1.1) = [m] →
        map_cluster_one st cc = connect st m.1.1 m.1.2 cc.1.2.1 cc.1.2.2) ∧
      (∀ m₁ m₂ ms, cluster.outputMappings.filter (fun m => m.2 = cc.1.1) =
          m₁ :: m₂ :: ms →
        map_cluster_one st cc = .error (.logic_error
          "Failed to ensure that only one output mapping is allowed on a cluster port"))) ∧
    (cc.2 = .cluster_downstream → mapFind st.cluster_map cc.1.2.1 = some cluster →
      (cluster.inputMappings.filter (fun m => m.1 = cc.1.2) = [] →
        map_cluster_one st cc = .error (.no_such_port cc.1.2.1 cc.1.2.2)) ∧
      (∀ m ms, cluster.inputMappings.filter (fun m => m.1 = cc.1.2) = m :: ms →
        map_cluster_one st cc =
          connect_list st ((m :: ms).map (fun mm => (cc.1.1, mm.2))))) ∧
    (∀ fuel st₁, map_cluster_connections fuel st = some (.ok st₁) →
      st₁.cluster_connections = []) := by
  rcases cc with ⟨⟨up, down⟩, ty⟩
  refine ⟨?_, ?_, ?_⟩
  · intro hty hcl
    subst hty
    refine ⟨?_, ?_, ?_⟩
    · intro hfil
      simp [map_cluster_one, hcl, hfil]
    · intro m hfil
      simp [map_cluster_one, hcl, hfil]
    · intro m₁ m₂ ms hfil
      simp [map_cluster_one, hcl, hfil]
  · intro hty hcl
    subst hty
    refine ⟨?_, ?_⟩
    · intro hfil
      simp [map_cluster_one, hcl, hfil]
    · intro m ms hfil
      simp [map_cluster_one, hcl, hfil]
  · intro fuel
    induction fuel generalizing st with
    | zero =>
        intro st₁ h
        simp [map_cluster_connections] at h
    | succ n ih =>
        intro st₁ h
        simp only [map_cluster_connections] at h
        rcases hsw : map_cluster_sweep { st with cluster_connections := [] }
            st.cluster_connections with _ | st₂
        all_goals rw [hsw] at h
        · exact Except.noConfusion (Option.some.inj h)
        · by_cases hemp : st₂.cluster_connections.isEmpty
          · simp only [hemp, if_true, Option.some.injEq, Except.ok.injEq] at h
            subst h
            exact List.isEmpty_iff.mp hemp
          · simp only [hemp, Bool.false_eq_true, if_false] at h
            exact ih st₂ st₁ h

/-- Fixture: a cluster with one output mapping `q.o → C.x`. -/
def exOutCluster : ProcObj :=
  .cluster ⟨"C", [], [], [(("q", "o"), ("C", "x"))]⟩ []

/-- Fixture: a cluster with two input mappings fanning `D.x` out to
`p1.i` and `p2.i`. -/
def exInCluster : ProcObj :=
  .cluster ⟨"D", [], [(("D", "x"), ("p1", "i")), (("D", "x"), ("p2", "i"))], []⟩ []

/-- Fixture: a builder holding both example clusters. -/
def exFlattenState : PipelineState :=
  { initialState with
    cluster_map := [("C", exOutCluster), ("D", exInCluster)] }

/-- Witness for C3: on the fixtures, the single matching output
mapping is replaced by one `connect`, a port with no mapping raises
`NoSuchPort`, and the two matching input mappings expand into a
`connect` per mapping. -/
theorem claim_C3_cluster_flattening_witness :
    map_cluster_one exFlattenState ((("C", "x"), ("b", "i")), .cluster_upstream) =
      connect exFlattenState "q" "o" "b" "i" ∧
    map_cluster_one exFlattenState ((("C", "y"), ("b", "i")), .cluster_upstream) =
      .error (.no_such_port "C" "y") ∧
    map_cluster_one exFlattenState ((("a", "o"), ("D", "x")), .cluster_downstream) =
      connect_list exFlattenState
        [(("a", "o"), ("p1", "i")), (("a", "o"), ("p2", "i"))] := by
  refine ⟨?_, ?_, ?_⟩
  · exact ((claim_C3_cluster_flattening exFlattenState
      ((("C", "x"), ("b", "i")), .cluster_upstream) exOutCluster).1 rfl rfl).2.1
      (("q", "o"), ("C", "x")) (by decide)
  · exact ((claim_C3_cluster_flattening exFlattenState
      ((("C", "y"), ("b", "i")), .cluster_upstream) exOutCluster).1 rfl rfl).1
      (by decide)
  · exact ((claim_C3_cluster_flattening exFlattenState
      ((("a", "o"), ("D", "x")), .cluster_downstream) exInCluster).2.1 rfl rfl).2
      (("D", "x"), ("p1", "i")) [(("D", "x"), ("p2", "i"))] (by decide)

theorem charListLt_irrefl : ∀ a, charListLt a a = false
  | [] => rfl
  | a :: as => by
      simp [charListLt, charListLt_irrefl as]

theorem charListLt_trans : ∀ a b c, charListLt a b = true → charListLt b c = true →
    charListLt a c = true
  | [], [], _ => by simp [charListLt]
  | [], _ :: _, [] => fun _ h => by simp [charListLt] at h
  | [], _ :: _, _ :: _ => fun _ _ => by simp [charListLt]
  | _ :: _, [], _ => fun h _ => by simp [charListLt] at h
  | _ :: _, _ :: _, [] => fun _ h => by simp [charListLt] at h
  | a :: as, b :: bs, c :: cs => fun h₁ h₂ => by
      simp only [charListLt] at h₁ h₂ ⊢
      by_cases hab : a.toNat < b.toNat
      · by_cases hbc : b.toNat < c.toNat
        · rw [if_pos (Nat.lt_trans hab hbc)]
        · rw [if_neg hbc] at h₂
          by_cases hcb : c.toNat < b.toNat
          · rw [if_pos hcb] at h₂
            exact absurd h₂ (by simp)
          · rw [if_neg hcb] at h₂
            have hbceq : b.toNat = c.toNat :=
              Nat.le_antisymm (Nat.not_lt.mp hcb) (Nat.not_lt.mp hbc)
            rw [if_pos (hbceq ▸ hab)]
      · rw [if_neg hab] at h₁
        by_cases hba : b.toNat < a.toNat
        · rw [if_pos hba] at h₁
          exact absurd h₁ (by simp)
        · rw [if_neg hba] at h₁
          have habeq : a.toNat = b.toNat :=
            Nat.le_antisymm (Nat.not_lt.mp hba) (Nat.not_lt.mp hab)
          by_cases hbc : b.toNat < c.toNat
          · rw [if_pos (habeq ▸ hbc)]
          · rw [if_neg hbc] at h₂
            by_cases hcb : c.toNat < b.toNat
            · rw [if_pos hcb] at h₂
              exact absurd h₂ (by simp)
            · rw [if_neg hcb] at h₂
              have hbceq : b.toNat = c.toNat :=
                Nat.le_antisymm (Nat.not_lt.mp hcb) (Nat.not_lt.mp hbc)
              have hac₁ : ¬a.toNat < c.toNat := by omega
              have hac₂ : ¬c.toNat < a.toNat := by omega
              rw [if_neg hac₁, if_neg hac₂]
              exact charListLt_trans as bs cs h₁ h₂

theorem charListLt_total : ∀ a b, a ≠ b → charListLt a b = false →
    charListLt b a = true
  | [], [] => fun h _ => absurd rfl h
  | [], _ :: _ => fun _ h => by simp [charListLt] at h
  | _ :: _, [] => fun _ _ => by simp [charListLt]
  | a :: as, b :: bs => fun hne h => by
      simp only [charListLt] at h ⊢
      by_cases hab : a.toNat < b.toNat
      · rw [if_pos hab] at h
        exact absurd h (by simp)
      · rw [if_neg hab] at h
        by_cases hba : b.toNat < a.toNat
        · rw [if_pos hba]
        · rw [if_neg hba] at h
          have hchar : a = b := Char.ext (UInt32.ext
            (Nat.le_antisymm (Nat.not_lt.mp hba) (Nat.not_lt.mp hab)))
          have hasbs : as ≠ bs := by
            intro he
            exact hne (by rw [hchar, he])
          rw [if_neg hba, if_neg hab]
          exact charListLt_total as bs hasbs h

theorem strLt_irrefl (a : String) : strLt a a = false :=
  charListLt_irrefl a.data

theorem strLt_trans (a b c : String) (h₁ : strLt a b = true) (h₂ : strLt b c = true) :
    strLt a c = true :=
  charListLt_trans a.data b.data c.data h₁ h₂

theorem strLt_total (a b : String) (hne : a ≠ b) (h : strLt a b = false) :
    strLt b a = true := by
  refine charListLt_total a.data b.data (fun he => hne ?_) h
  cases a
  cases b
  exact congrArg String.mk he

/-- The key ordering maintained by `mapSet` (`std::map` keeps its
entries sorted by key). -/
def KeysOrdered {α : Type} (m : List (Name × α)) : Prop :=
  List.Pairwise (fun e₁ e₂ => strLt e₁.1 e₂.1 = true) m

/-- Membership after an insert-or-assign. -/
theorem mapSet_mem {α : Type} : ∀ (m : List (Name × α)) (k : Name) (v : α),
    ∀ e ∈ mapSet m k v, e ∈ m ∨ e.1 = k
  | [], k, v => by
      intro e he
      simp only [mapSet, List.mem_singleton] at he
      right
      rw [he]
  | (k₁, v₁) :: rest, k, v => by
      intro e he
      by_cases h : k = k₁
      · simp only [mapSet, if_pos h] at he
        rw [List.mem_cons] at he
        rcases he with he | he
        · right
          rw [he]
        · left
          exact List.mem_cons_of_mem _ he
      · by_cases hlt : strLt k k₁
        · simp only [mapSet, if_neg h, if_pos hlt] at he
          rw [List.mem_cons] at he
          rcases he with he | he
          · right
            rw [he]
          · left
            exact he
        · simp only [mapSet, if_neg h, if_neg hlt] at he
          rw [List.mem_cons] at he
          rcases he with he | he
          · left
            rw [he]
            exact List.mem_cons_self _ _
          · rcases mapSet_mem rest k v e he with h₂ | h₂
            · left
              exact List.mem_cons_of_mem _ h₂
            · right
              exact h₂

/-- Insert-or-assign keeps the keys ordered. -/
theorem mapSet_keysOrdered {α : Type} : ∀ (m : List (Name × α)) (k : Name) (v : α),
    KeysOrdered m → KeysOrdered (mapSet m k v)
  | [], k, v => fun _ => by simp [mapSet, KeysOrdered]
  | (k₁, v₁) :: rest, k, v => fun h => by
      obtain ⟨hrel, hrest⟩ := List.pairwise_cons.mp h
      by_cases heq : k = k₁
      · simp only [mapSet, if_pos heq]
        exact List.pairwise_cons.mpr ⟨fun e he => heq ▸ hrel e he, hrest⟩
      · by_cases hlt : strLt k k₁
        · simp only [mapSet, if_neg heq, if_pos hlt]
          refine List.pairwise_cons.mpr ⟨?_, h⟩
          intro e he
          rcases List.mem_cons.mp he with he | he
          · rw [he]; exact hlt
          · exact strLt_trans _ _ _ hlt (hrel e he)
        · simp only [mapSet, if_neg heq, if_neg hlt]
          refine List.pairwise_cons.mpr ⟨?_, mapSet_keysOrdered rest k v hrest⟩
          intro e he
          rcases mapSet_mem rest k v e he with h₂ | h₂
          · exact hrel e h₂
          · rw [h₂]
            exact strLt_total k k₁ heq (by simpa using hlt)

/-- Ordered keys are distinct. -/
theorem keysOrdered_nodup {α : Type} (m : List (Name × α)) (h : KeysOrdered m) :
    (m.map (fun e => e.1)).Nodup := by
  refine List.Pairwise.map _ ?_ h
  intro a b hab
  intro hcon
  rw [hcon] at hab
  rw [strLt_irrefl] at hab
  exact Bool.noConfusion hab

/-- One frequency map extends another. -/
def Submap (fm fm₁ : List (Name × ℚ)) : Prop :=
  ∀ k v, mapFind fm k = some v → mapFind fm₁ k = some v

theorem submap_refl (fm : List (Name × ℚ)) : Submap fm fm := fun _ _ h => h

theorem submap_mapSet_of_absent (fm : List (Name × ℚ)) (k : Name) (v : ℚ)
    (h : mapFind fm k = none) : Submap fm (mapSet fm k v) := by
  intro j w hj
  have hne : j ≠ k := by
    intro he
    rw [he, h] at hj
    exact Option.noConfusion hj
  rw [mapFind_mapSet_ne _ _ _ _ hne]
  exact hj

/-- A found binding is a member. -/
theorem mapFind_some_mem {α : Type} : ∀ (m : List (Name × α)) (k : Name) (v : α),
    mapFind m k = some v → (k, v) ∈ m
  | [], _, _ => fun h => Option.noConfusion h
  | (k₁, v₁) :: rest, k, v => fun h => by
      by_cases he : k = k₁
      · simp only [mapFind, if_pos he] at h
        simp [he, Option.some.inj h]
      · simp only [mapFind, if_neg he] at h
        exact List.mem_cons.mpr (Or.inr (mapFind_some_mem rest k v h))

/-- The frequency invariant a processed connection satisfies against
a frequency map: when the two endpoints are distinct registered
processes and both port frequencies are set, both endpoints carry
assigned frequencies with matching edge rates. -/
def ConnGood (st : PipelineState) (fm : List (Name × ℚ)) (c : Connection) : Prop :=
  ∀ upP dnP upI dnI,
    c.1.1 ≠ c.2.1 →
    mapFind st.process_map c.1.1 = some upP →
    mapFind st.process_map c.2.1 = some dnP →
    upP.output_infos.lookup c.1.2 = some upI →
    dnP.input_infos.lookup c.2.2 = some dnI →
    upI.frequency ≠ 0 → dnI.frequency ≠ 0 →
    ∃ fu fd, mapFind fm c.1.1 = some fu ∧ mapFind fm c.2.1 = some fd ∧
      fu * upI.frequency = fd * dnI.frequency

theorem connGood_mono (st : PipelineState) (fm fm₁ : List (Name × ℚ)) (c : Connection)
    (hsub : Submap fm fm₁) (h : ConnGood st fm c) : ConnGood st fm₁ c := by
  intro upP dnP upI dnI hne h₁ h₂ h₃ h₄ h₅ h₆
  obtain ⟨fu, fd, hfu, hfd, heq⟩ := h upP dnP upI dnI hne h₁ h₂ h₃ h₄ h₅ h₆
  exact ⟨fu, fd, hsub _ _ hfu, hsub _ _ hfd, heq⟩

/-- A connection skipped by the frequency worklist (unset port
frequency on a side) satisfies the frequency invariant vacuously. -/
theorem freq_step_skip_good (st : PipelineState) (fm fm₂ : List (Name × ℚ))
    (c : Connection) (h : freq_step st fm c = .skip) : ConnGood st fm₂ c := by
  intro upP dnP upI dnI hne h₁ h₂ h₃ h₄ h₅ h₆
  exfalso
  simp only [freq_step, process_by_name, h₁, h₂, output_port_info, input_port_info,
    h₃, h₄] at h
  rw [if_neg (by rintro (hz | hz); exacts [h₅ hz, h₆ hz])] at h
  repeat' split at h
  all_goals exact FreqStepResult.noConfusion h

/-- A step that extends the frequency map preserves existing
bindings and key order, and leaves the processed connection
satisfying the frequency invariant. -/
theorem freq_step_assigned_props (st : PipelineState) (fm fm₁ : List (Name × ℚ))
    (c : Connection) (h : freq_step st fm c = .assigned fm₁) :
    Submap fm fm₁ ∧ (KeysOrdered fm → KeysOrdered fm₁) ∧ ConnGood st fm₁ c := by
  rcases hpu : mapFind st.process_map c.1.1 with _ | upP
  · simp [freq_step, process_by_name, hpu] at h
  rcases hui : upP.output_infos.lookup c.1.2 with _ | upI
  · simp [freq_step, process_by_name, hpu, output_port_info, hui] at h
  rcases hpd : mapFind st.process_map c.2.1 with _ | dnP
  · simp [freq_step, process_by_name, hpu, hpd, output_port_info, hui] at h
  rcases hdi : dnP.input_infos.lookup c.2.2 with _ | dnI
  · simp [freq_step, process_by_name, hpu, hpd, output_port_info, input_port_info,
      hui, hdi] at h
  by_cases hz : (upI.frequency = 0 ∨ dnI.frequency = 0)
  · simp [freq_step, process_by_name, hpu, hpd, output_port_info, input_port_info,
      hui, hdi, hz] at h
  have hz₁ : upI.frequency ≠ 0 := fun hc => hz (Or.inl hc)
  have hz₂ : dnI.frequency ≠ 0 := fun hc => hz (Or.inr hc)
  rcases hfu : mapFind fm c.1.1 with _ | fu <;> rcases hfd : mapFind fm c.2.1 with _ | fd
  · -- neither endpoint assigned
    by_cases hfm : fm = []
    · subst hfm
      simp only [freq_step, process_by_name, hpu, hpd, output_port_info,
        input_port_info, hui, hdi, hz, hfu, hfd, mapFind_mapSet_self,
        Option.isSome_none, Option.getD_some, and_self, and_true, true_and,
        Bool.false_eq_true, and_false, false_and, if_true, if_false, reduceIte,
        FreqStepResult.assigned.injEq] at h
      subst h
      refine ⟨?_, ?_, ?_⟩
      · intro k v hkv
        exact Option.noConfusion hkv
      · intro _
        exact mapSet_keysOrdered _ _ _ (mapSet_keysOrdered [] _ _ (by simp [KeysOrdered]))
      · intro upP' dnP' upI' dnI' hne h₁ h₂ h₃ h₄ h₅ h₆
        rw [hpu] at h₁
        rw [hpd] at h₂
        cases Option.some.inj h₁
        cases Option.some.inj h₂
        rw [hui] at h₃
        rw [hdi] at h₄
        cases Option.some.inj h₃
        cases Option.some.inj h₄
        refine ⟨1, 1 * upI.frequency / dnI.frequency, ?_, ?_, ?_⟩
        · rw [mapFind_mapSet_ne _ _ _ _ hne]
          exact mapFind_mapSet_self _ _ _
        · exact mapFind_mapSet_self _ _ _
        · rw [div_mul_cancel₀ _ h₆]
    · simp [freq_step, process_by_name, hpu, hpd, output_port_info, input_port_info,
        hui, hdi, hz, hfu, hfd, hfm] at h
  · -- only downstream assigned: propagate upstream
    simp only [freq_step, process_by_name, hpu, hpd, output_port_info,
      input_port_info, hui, hdi, hz, hfu, hfd, Option.isSome_none,
      Option.isSome_some, Option.getD_some, reduceCtorEq, false_and, and_false,
      true_and, and_true, and_self, Bool.false_eq_true, if_false, if_true,
      reduceIte, FreqStepResult.assigned.injEq] at h
    subst h
    refine ⟨submap_mapSet_of_absent _ _ _ hfu, fun ho => mapSet_keysOrdered _ _ _ ho, ?_⟩
    intro upP' dnP' upI' dnI' hne h₁ h₂ h₃ h₄ h₅ h₆
    rw [hpu] at h₁
    rw [hpd] at h₂
    cases Option.some.inj h₁
    cases Option.some.inj h₂
    rw [hui] at h₃
    rw [hdi] at h₄
    cases Option.some.inj h₃
    cases Option.some.inj h₄
    refine ⟨fd * dnI.frequency / upI.frequency, fd, mapFind_mapSet_self _ _ _, ?_, ?_⟩
    · rw [mapFind_mapSet_ne _ _ _ _ (Ne.symm hne)]
      exact hfd
    · rw [div_mul_cancel₀ _ h₅]
  · -- only upstream assigned: propagate downstream
    simp only [freq_step, process_by_name, hpu, hpd, output_port_info,
      input_port_info, hui, hdi, hz, hfu, hfd, Option.isSome_none,
      Option.isSome_some, Option.getD_some, reduceCtorEq, false_and, and_false,
      true_and, and_true, and_self, Bool.false_eq_true, if_false, if_true,
      reduceIte, FreqStepResult.assigned.injEq] at h
    subst h
    refine ⟨submap_mapSet_of_absent _ _ _ hfd, fun ho => mapSet_keysOrdered _ _ _ ho, ?_⟩
    intro upP' dnP' upI' dnI' hne h₁ h₂ h₃ h₄ h₅ h₆
    rw [hpu] at h₁
    rw [hpd] at h₂
    cases Option.some.inj h₁
    cases Option.some.inj h₂
    rw [hui] at h₃
    rw [hdi] at h₄
    cases Option.some.inj h₃
    cases Option.some.inj h₄
    refine ⟨fu, fu * upI.frequency / dnI.frequency, ?_, mapFind_mapSet_self _ _ _, ?_⟩
    · rw [mapFind_mapSet_ne _ _ _ _ hne]
      exact hfu
    · rw [div_mul_cancel₀ _ h₆]
  · -- both assigned: validate
    by_cases hval : fd ≠ fu * upI.frequency / dnI.frequency
    · simp [freq_step, process_by_name, hpu, hpd, output_port_info, input_port_info,
        hui, hdi, hz, hfu, hfd, hval] at h
    · simp only [freq_step, process_by_name, hpu, hpd, output_port_info,
        input_port_info, hui, hdi, hz, hfu, hfd, hval, Option.isSome_none,
        Option.isSome_some, Option.getD_some, reduceCtorEq, false_and, and_false,
        true_and, and_true, and_self, Bool.false_eq_true, if_false, if_true,
        reduceIte, ne_eq, not_false_eq_true, not_true_eq_false,
        FreqStepResult.assigned.injEq] at h
      subst h
      have hfdeq : fd = fu * upI.frequency / dnI.frequency := not_not.mp hval
      refine ⟨submap_refl fm, fun ho => ho, ?_⟩
      intro upP' dnP' upI' dnI' hne h₁ h₂ h₃ h₄ h₅ h₆
      rw [hpu] at h₁
      rw [hpd] at h₂
      cases Option.some.inj h₁
      cases Option.some.inj h₂
      rw [hui] at h₃
      rw [hdi] at h₄
      cases Option.some.inj h₃
      cases Option.some.inj h₄
      refine ⟨fu, fd, hfu, hfd, ?_⟩
      rw [hfdeq, div_mul_cancel₀ _ h₆]

/-- Invariant of the frequency worklist loop: a successful run keeps
the map keys ordered, and every connection that was queued (or
already satisfied the invariant) satisfies the frequency invariant
against the final map. -/
theorem freq_loop_invariant (st : PipelineState) :
    ∀ fuel queue fm fmF,
      freq_loop st fuel queue fm = some (.ok fmF) →
      KeysOrdered fm →
      KeysOrdered fmF ∧
      ∀ c, (c ∈ queue ∨ ConnGood st fm c) → ConnGood st fmF c := by
  intro fuel
  induction fuel with
  | zero =>
      intro queue fm fmF h ho
      cases queue with
      | nil =>
          simp only [freq_loop, Option.some.injEq, Except.ok.injEq] at h
          subst h
          exact ⟨ho, fun c hc => hc.resolve_left (by simp)⟩
      | cons c₀ rest => simp [freq_loop] at h
  | succ n ih =>
      intro queue fm fmF h ho
      cases queue with
      | nil =>
          simp only [freq_loop, Option.some.injEq, Except.ok.injEq] at h
          subst h
          exact ⟨ho, fun c hc => hc.resolve_left (by simp)⟩
      | cons c₀ rest =>
          simp only [freq_loop] at h
          rcases hstep : freq_step st fm c₀ with _ | fm₁ | _ | e
          all_goals rw [hstep] at h
          · obtain ⟨hoF, hgood⟩ := ih rest fm fmF h ho
            refine ⟨hoF, fun c hc => hgood c ?_⟩
            rcases hc with hc | hc
            · rcases List.mem_cons.mp hc with hc | hc
              · exact Or.inr (hc ▸ freq_step_skip_good st fm fm c₀ hstep)
              · exact Or.inl hc
            · exact Or.inr hc
          · obtain ⟨hsub, hord, hgoodc⟩ := freq_step_assigned_props st fm fm₁ c₀ hstep
            obtain ⟨hoF, hgood⟩ := ih rest fm₁ fmF h (hord ho)
            refine ⟨hoF, fun c hc => hgood c ?_⟩
            rcases hc with hc | hc
            · rcases List.mem_cons.mp hc with hc | hc
              · exact Or.inr (hc ▸ hgoodc)
              · exact Or.inl hc
            · exact Or.inr (connGood_mono st fm fm₁ c hsub hc)
          · obtain ⟨hoF, hgood⟩ := ih (rest ++ [c₀]) fm fmF h ho
            refine ⟨hoF, fun c hc => hgood c ?_⟩
            rcases hc with hc | hc
            · rcases List.mem_cons.mp hc with hc | hc
              · exact Or.inl (List.mem_append.mpr (Or.inr (by simp [hc])))
              · exact Or.inl (List.mem_append.mpr (Or.inl hc))
            · exact Or.inr hc
          · exact Except.noConfusion (Option.some.inj h)

/-- C2 (amended): on a successful frequency pass,
`set_core_frequency` is called exactly once for each process the
solver assigned a frequency (its call list carries pairwise-distinct
names), in the single-process special case exactly the one
registered process is called at `1/1`, and — with at least two
registered processes — for every resolved connection between two
distinct processes whose endpoint port frequencies are both set, the
issued core frequencies satisfy
`coreFreq(up) * upPortFreq = coreFreq(down) * downPortFreq`.
Registered processes outside the solver's map receive no call. -/
theorem claim_C2_core_frequency_calls (st : PipelineState) (fuel : Nat)
    (calls : List (Name × ℚ))
    (h : check_port_frequencies st fuel = some (.ok calls)) :
    (calls.map (fun e => e.1)).Nodup ∧
    (∀ only, st.process_map = [only] → calls = [(only.1, 1)]) ∧
    (∀ p₁ p₂ pm, st.process_map = p₁ :: p₂ :: pm →
      ∀ c ∈ st.connections, ∀ upP dnP upI dnI,
        c.1.1 ≠ c.2.1 →
        mapFind st.process_map c.1.1 = some upP →
        mapFind st.process_map c.2.1 = some dnP →
        upP.output_infos.lookup c.1.2 = some upI →
        dnP.input_infos.lookup c.2.2 = some dnI →
        upI.frequency ≠ 0 → dnI.frequency ≠ 0 →
        ∃ cu cd, (c.1.1, cu) ∈ calls ∧ (c.2.1, cd) ∈ calls ∧
          cu * upI.frequency = cd * dnI.frequency) := by
  rcases hpm : st.process_map with _ | ⟨p₁, pm⟩
  · -- empty registry: worklist path
    simp only [check_port_frequencies, hpm] at h
    rcases hloop : freq_loop st fuel st.connections [] with _ | res
    all_goals rw [hloop] at h
    · exact Option.noConfusion h
    · cases res with
      | error e => exact Except.noConfusion (Option.some.inj h)
      | ok fm =>
          simp only [Option.some.injEq, Except.ok.injEq] at h
          subst h
          obtain ⟨hoF, _⟩ := freq_loop_invariant st fuel st.connections [] fm hloop
            (by simp [KeysOrdered])
          refine ⟨?_, ?_, ?_⟩
          · rw [List.map_map]
            exact keysOrdered_nodup fm hoF
          · intro only honly
            exact List.noConfusion honly
          · intro q₁ q₂ qm hq
            exact List.noConfusion hq
  · cases pm with
    | nil =>
        simp only [check_port_frequencies, hpm, Option.some.injEq,
          Except.ok.injEq] at h
        subst h
        refine ⟨by simp, ?_, ?_⟩
        · intro only honly
          injection honly with h₁ h₂
          rw [h₁]
        · intro q₁ q₂ qm hq
          injection hq with h₁ h₂
          exact List.noConfusion h₂
    | cons p₂ pm₂ =>
        simp only [check_port_frequencies, hpm] at h
        rcases hloop : freq_loop st fuel st.connections [] with _ | res
        all_goals rw [hloop] at h
        · exact Option.noConfusion h
        · cases res with
          | error e => exact Except.noConfusion (Option.some.inj h)
          | ok fm =>
              simp only [Option.some.injEq, Except.ok.injEq] at h
              subst h
              obtain ⟨hoF, hgood⟩ := freq_loop_invariant st fuel st.connections [] fm
                hloop (by simp [KeysOrdered])
              refine ⟨?_, ?_, ?_⟩
              · rw [List.map_map]
                exact keysOrdered_nodup fm hoF
              · intro only honly
                injection honly with h₁ h₂
                exact List.noConfusion h₂
              · intro q₁ q₂ qm hq c hc upP dnP upI dnI hne h₁ h₂ h₃ h₄ h₅ h₆
                rw [← hpm] at h₁ h₂
                obtain ⟨fu, fd, hfu, hfd, heq⟩ :=
                  hgood c (Or.inl hc) upP dnP upI dnI hne h₁ h₂ h₃ h₄ h₅ h₆
                refine ⟨((fm.foldl (fun g p => Nat.lcm g p.2.den) 1 : ℕ) : ℚ) * fu,
                  ((fm.foldl (fun g p => Nat.lcm g p.2.den) 1 : ℕ) : ℚ) * fd, ?_, ?_, ?_⟩
                · exact List.mem_map_of_mem _ (mapFind_some_mem fm c.1.1 fu hfu)
                · exact List.mem_map_of_mem _ (mapFind_some_mem fm c.2.1 fd hfd)
                · rw [mul_assoc, mul_assoc, heq]

/-- Fixture (scenario S5): process `a` with output `o` at port
frequency `1/1`. -/
def exS5A : ProcessDef := ⟨"a", [], [("o", ⟨"int", [], 1⟩)]⟩

/-- Fixture (scenario S5): process `b`, input `i` at `1/2`, output
`o` at `1/1`. -/
def exS5B : ProcessDef := ⟨"b", [("i", ⟨"int", [], 1/2⟩)], [("o", ⟨"int", [], 1⟩)]⟩

/-- Fixture (scenario S5): process `c`, input `i` at `1/3`. -/
def exS5C : ProcessDef := ⟨"c", [("i", ⟨"int", [], 1/3⟩)], []⟩

/-- Fixture (scenario S5): the three-process chain with resolved
connections `a.o→b.i` and `b.o→c.i`. -/
def exS5State : PipelineState :=
  { initialState with
    process_map := [("a", exS5A), ("b", exS5B), ("c", exS5C)]
    connections := [(("a", "o"), ("b", "i")), (("b", "o"), ("c", "i"))] }

set_option maxHeartbeats 1000000 in
/-- Concrete evaluation of the frequency pass on the S5 fixture. -/
theorem exS5_check_eval :
    check_port_frequencies exS5State 10 =
      some (.ok [("a", 1), ("b", 2), ("c", 6)]) := by
  have h₁ : ¬((1 : ℚ) = 0) := by norm_num
  have h₂ : ¬((1 : ℚ) / 2 = 0) := by norm_num
  have h₃ : ¬((1 : ℚ) / 3 = 0) := by norm_num
  have h₄ : (1 : ℚ) * 1 / (1 / 2) = 2 := by norm_num
  have h₅ : (2 : ℚ) * 1 / (1 / 3) = 6 := by norm_num
  have h₆ : Nat.lcm 1 1 = 1 := rfl
  have h₇ : (2 : ℚ) * 3 = 6 := by norm_num
  simp [check_port_frequencies, freq_loop, freq_step, process_by_name,
    output_port_info, input_port_info, mapFind, mapSet, strLt, charListLt,
    exS5State, exS5A, exS5B, exS5C, initialState, h₁, h₂, h₃, h₄, h₅, h₆, h₇]

set_option maxHeartbeats 1000000 in
/-- C5: on the S5 pipeline the solver assigns `freq[a]=1/1`,
`freq[b]=2/1`, `freq[c]=6/1`, the lcm of the denominators is `1`,
and the core frequencies passed to `set_core_frequency` are `1`, `2`
and `6`. -/
theorem claim_C5_s5_frequency_inference :
    freq_loop exS5State 10 exS5State.connections [] =
      some (.ok [("a", 1), ("b", 2), ("c", 6)]) ∧
    ([("a", (1 : ℚ)), ("b", 2), ("c", 6)].foldl
      (fun g p => Nat.lcm g p.2.den) 1) = 1 ∧
    check_port_frequencies exS5State 10 =
      some (.ok [("a", 1), ("b", 2), ("c", 6)]) := by
  have h₁ : ¬((1 : ℚ) = 0) := by norm_num
  have h₂ : ¬((1 : ℚ) / 2 = 0) := by norm_num
  have h₃ : ¬((1 : ℚ) / 3 = 0) := by norm_num
  have h₄ : (1 : ℚ) * 1 / (1 / 2) = 2 := by norm_num
  have h₅ : (2 : ℚ) * 1 / (1 / 3) = 6 := by norm_num
  have h₆ : Nat.lcm 1 1 = 1 := rfl
  have h₇ : (2 : ℚ) * 3 = 6 := by norm_num
  refine ⟨?_, ?_, exS5_check_eval⟩
  · simp [freq_loop, freq_step, process_by_name,
      output_port_info, input_port_info, mapFind, mapSet, strLt, charListLt,
      exS5State, exS5A, exS5B, exS5C, initialState, h₁, h₂, h₃, h₄, h₅, h₇]
  · simp [h₆]

/-- Witness for C2: applying the theorem to the S5 fixture, the call
list has pairwise-distinct names and the `a.o→b.i` connection
satisfies the core-frequency equation. -/
theorem claim_C2_core_frequency_calls_witness :
    (([("a", (1 : ℚ)), ("b", 2), ("c", 6)].map (fun e => e.1)).Nodup) ∧
    (∃ cu cd, ("a", cu) ∈ [("a", (1 : ℚ)), ("b", 2), ("c", 6)] ∧
      ("b", cd) ∈ [("a", (1 : ℚ)), ("b", 2), ("c", 6)] ∧
      cu * 1 = cd * (1 / 2)) := by
  obtain ⟨hnodup, _, hratio⟩ :=
    claim_C2_core_frequency_calls exS5State 10 _ exS5_check_eval
  refine ⟨hnodup, ?_⟩
  exact hratio ("a", exS5A) ("b", exS5B) [("c", exS5C)] rfl
    (("a", "o"), ("b", "i")) (by simp [exS5State]) exS5A exS5B
    ⟨"int", [], 1⟩ ⟨"int", [], 1/2⟩ (by decide)
    (by simp [exS5State, mapFind, exS5A])
    (by simp [exS5State, mapFind, exS5A, exS5B])
    (by simp [exS5A]) (by simp [exS5B]) (by norm_num) (by norm_num)

/-- Fixture: two connected processes with no port frequencies set. -/
def exNoFreqA : ProcessDef := ⟨"a", [], [("o", ⟨"int", [], 0⟩)]⟩

/-- Fixture: downstream of the unvalidatable edge. -/
def exNoFreqB : ProcessDef := ⟨"b", [("i", ⟨"int", [], 0⟩)], []⟩

/-- Fixture: the two-process pipeline whose only edge carries no port
frequencies. -/
def exNoFreqState : PipelineState :=
  { initialState with
    process_map := [("a", exNoFreqA), ("b", exNoFreqB)]
    connections := [(("a", "o"), ("b", "i"))] }

/-- Fixture: a process with a frequency-bearing self-loop (`a.o` at
`1/1` into `a.i` at `1/2`, `input-nodep` so the structural checks
pass) plus an unvalidatable edge to `b`. -/
def exSelfLoopA : ProcessDef :=
  ⟨"a", [("i", ⟨"int", [flag_input_nodep], 1/2⟩)],
    [("o", ⟨"int", [], 1⟩), ("o2", ⟨"int", [], 0⟩)]⟩

/-- Fixture: the second process keeping the self-loop pipeline
connected. -/
def exSelfLoopB : ProcessDef := ⟨"b", [("i", ⟨"int", [], 0⟩)], []⟩

/-- Fixture: the self-loop pipeline. -/
def exSelfLoopState : PipelineState :=
  { initialState with
    process_map := [("a", exSelfLoopA), ("b", exSelfLoopB)]
    connections := [(("a", "o"), ("a", "i")), (("a", "o2"), ("b", "i"))] }

set_option maxHeartbeats 1000000 in
/-- Counterexample for C2. First half: on the no-frequency pipeline
the pass succeeds issuing no `set_core_frequency` call at all,
although `b` is registered — refuting "called exactly once on every
registered process". Second half: on the self-loop pipeline the pass
succeeds with core frequency `2` for `a`, while the resolved
connection `a.o→a.i` carries port frequencies `1` and `1/2`, so
`freq(up)·upPortFreq = 2·1` differs from `freq(down)·downPortFreq =
2·(1/2)` — refuting the claimed equation for every resolved
connection with both frequencies known. -/
theorem claim_C2_core_frequency_calls_counterexample :
    check_port_frequencies exNoFreqState 5 = some (.ok []) ∧
    mapFind exNoFreqState.process_map "b" = some exNoFreqB ∧
    check_port_frequencies exSelfLoopState 5 = some (.ok [("a", 2)]) ∧
    exSelfLoopState.connections =
      [(("a", "o"), ("a", "i")), (("a", "o2"), ("b", "i"))] ∧
    ¬((2 : ℚ) * 1 = 2 * (1 / 2)) := by
  have h₁ : ¬((1 : ℚ) = 0) := by norm_num
  have h₂ : ¬((1 : ℚ) / 2 = 0) := by norm_num
  have h₄ : (1 : ℚ) * 1 / (1 / 2) = 2 := by norm_num
  have h₆ : Nat.lcm 1 1 = 1 := rfl
  refine ⟨?_, by decide, ?_, rfl, by norm_num⟩
  · simp [check_port_frequencies, freq_loop, freq_step, process_by_name,
      output_port_info, input_port_info, mapFind, mapSet, strLt, charListLt,
      exNoFreqState, exNoFreqA, exNoFreqB, initialState]
  · simp [check_port_frequencies, freq_loop, freq_step, process_by_name,
      output_port_info, input_port_info, mapFind, mapSet, strLt, charListLt,
      List.lookup, exSelfLoopState, exSelfLoopA, exSelfLoopB, initialState,
      h₁, h₂, h₄, h₆]

end Vistk
